import Mathlib

set_option maxRecDepth 10000

/-!
# DepthMapToPointCloud: the square-kernel dispatch and its validation

A shallow embedding of `src/DepthMapToPointCloud/DepthMapToPointCloud.cpp`:
the host routine `validate` and the live `main`, over a block memory of
`cl_float` buffers and a trace of the calls, memory accesses and prints the
program performs.

* `cl_float` is the IEEE-754 binary32 format with the default rounding
  (to nearest, ties to even); `*`, `!=` and the conversion `(cl_float)i`
  are `cl_float.mul`, `cl_float.ne` and `cl_float.ofInt`.
* A pointer is the name of the block it points to (`Buf`); an access outside
  a block, or to a block that is not allocated, is a `Fault`.
* The OpenCL and GCD library is not part of the repository: what it returns
  (queues, device name, work-group size, the contents of fresh memory, the
  effect of the kernel on its output buffer) is read from an `Env`.
* Loops carry a fuel argument, handed down from `main` and `validate`; running
  out of fuel is the fault `Fault.out_of_fuel`. The statements below hold for
  every amount of fuel above `NUM_VALUES`.
-/

namespace DepthMapToPointCloud

/-! ## Single-precision numbers -/

/-- Number of binary digits of `n`, by repeated halving (`fuel` bounds the number of halvings). -/
def bitLengthAux : Nat → Nat → Nat
  | 0, _ => 0
  | fuel + 1, n => if n = 0 then 0 else bitLengthAux fuel (n / 2) + 1

/-- Number of binary digits of `n`: `bitLength 0 = 0`, `bitLength 5 = 3`. -/
def bitLength (n : Nat) : Nat := bitLengthAux n n

/-- A datum of the binary32 format: `finite neg m e` stands for `(-1)^neg * m * 2^e`
(representable when `m < 2^24` and `-149 ≤ e ≤ 104`), `inf neg` for the two infinities,
`nan` for not-a-number. -/
inductive cl_float where
  | finite (neg : Bool) (m : Nat) (e : Int)
  | inf (neg : Bool)
  | nan
deriving DecidableEq

namespace cl_float

/-- Rounding of the exact value `(-1)^neg * m * 2^e` to binary32, to nearest with ties to
even: 24 significant bits, least exponent `-149`, overflow to infinity above `2^128 - 2^104`. -/
def round (neg : Bool) (m : Nat) (e : Int) : cl_float :=
  if m = 0 then finite neg 0 (-149)
  else
    let bits : Int := (bitLength m : Nat)
    let e' : Int := max (e + bits - 24) (-149)
    if e' ≤ e then
      if 104 < e' then inf neg else finite neg (m * 2 ^ (e - e').toNat) e'
    else
      let s : Nat := (e' - e).toNat
      let q : Nat := m / 2 ^ s
      let r : Nat := m % 2 ^ s
      let half : Nat := 2 ^ (s - 1)
      let q' : Nat := if half < r ∨ (r = half ∧ q % 2 = 1) then q + 1 else q
      if q' = 2 ^ 24 then
        (if 104 < e' + 1 then inf neg else finite neg (2 ^ 23) (e' + 1))
      else if 104 < e' then inf neg else finite neg q' e'

/-- The conversion `(cl_float)i` of an `int`. -/
def ofInt (i : Int) : cl_float := round (decide (i < 0)) i.natAbs 0

/-- The product `x * y` of two `cl_float` values. -/
def mul : cl_float → cl_float → cl_float
  | finite s m e, finite t n f => round (xor s t) (m * n) (e + f)
  | finite s m _, inf t => if m = 0 then nan else inf (xor s t)
  | inf s, finite t n _ => if n = 0 then nan else inf (xor s t)
  | inf s, inf t => inf (xor s t)
  | nan, _ => nan
  | _, nan => nan

/-- The comparison `x != y`: true when either side is a NaN, false on two zeros of any sign,
otherwise true exactly when the two values differ. -/
def ne : cl_float → cl_float → Bool
  | finite s m e, finite t n f =>
      let k := min e f
      let a := m * 2 ^ (e - k).toNat
      let b := n * 2 ^ (f - k).toNat
      !((a == 0 && b == 0) || (s == t && a == b))
  | inf s, inf t => s != t
  | _, _ => true

/-- The rational number a finite datum stands for; `none` for infinities and NaN. -/
def toRat : cl_float → Option ℚ
  | finite s m e => some ((if s then -1 else 1) * (m : ℚ) * (2 : ℚ) ^ e)
  | _ => none

end cl_float

/-! ## Memory, trace and faults -/

/-- Hard-coded number of values to test (`#define NUM_VALUES 1024`). -/
def NUM_VALUES : Nat := 1024

/-- The four blocks of memory `main` allocates, named after the pointer variables that
hold them. -/
inductive Buf where
  | test_in
  | test_out
  | mem_in
  | mem_out
deriving DecidableEq

/-- The two device types `main` asks a dispatch queue for. -/
inductive cl_device_type where
  | CL_DEVICE_TYPE_GPU
  | CL_DEVICE_TYPE_CPU
deriving DecidableEq

/-- The N-dimensional range handed to the kernel. -/
structure cl_ndrange where
  work_dim : Nat
  global_work_offset : Nat × Nat × Nat
  global_work_size : Nat × Nat × Nat
  local_work_size : Nat × Nat × Nat
deriving DecidableEq

/-- An argument of a `fprintf` call. -/
inductive Arg where
  | int (v : Int)
  | float (v : cl_float)
  | str (s : String)
deriving DecidableEq

/-- What the program does that can be observed: library calls with their arguments, reads
and writes of buffer elements, and `compare i`, the evaluation of the test
`output[i] != input[i] * input[i]` with the loop counter at `i`. Sizes are counted in
elements (`sizeof(cl_float)` bytes each). -/
inductive Event where
  | gcl_create_dispatch_queue (device_type : cl_device_type)
  | gcl_get_device_id_with_dispatch_queue (queue : Nat)
  | clGetDeviceInfo (device : Nat)
  | fprintf (format : String) (args : List Arg)
  | fflush
  | malloc (b : Buf) (count : Nat)
  | gcl_malloc (b : Buf) (count : Nat) (host : Option Buf)
  | store (b : Buf) (i : Nat)
  | load (b : Buf) (i : Nat)
  | compare (i : Nat)
  | dispatch_sync (queue : Nat)
  | gcl_get_kernel_block_workgroup_info
  | square_kernel (range : cl_ndrange) (input output : Buf)
  | gcl_memcpy (dst src : Buf) (count : Nat)
  | gcl_free (b : Buf)
  | free (b : Buf)
  | dispatch_release (queue : Nat)
deriving DecidableEq

/-- Ways a run can go wrong. -/
inductive Fault where
  | out_of_fuel
  | bad_access (b : Buf) (i : Nat)
  | bad_free (b : Buf)
deriving DecidableEq

/-- The contents of the four blocks; `none` for a block that is not allocated. -/
structure Heap where
  test_in : Option (Array cl_float)
  test_out : Option (Array cl_float)
  mem_in : Option (Array cl_float)
  mem_out : Option (Array cl_float)

/-- The contents of block `b`. -/
def Heap.get (h : Heap) : Buf → Option (Array cl_float)
  | Buf.test_in => h.test_in
  | Buf.test_out => h.test_out
  | Buf.mem_in => h.mem_in
  | Buf.mem_out => h.mem_out

/-- Replace the contents of block `b`. -/
def Heap.set (h : Heap) (b : Buf) (v : Option (Array cl_float)) : Heap :=
  match b with
  | Buf.test_in => { h with test_in := v }
  | Buf.test_out => { h with test_out := v }
  | Buf.mem_in => { h with mem_in := v }
  | Buf.mem_out => { h with mem_out := v }

/-- Machine state: the contents of each allocated block, and the events so far. -/
structure State where
  heap : Heap
  trace : List Event

/-- What the library and the machine supply: the queue handles returned for the GPU and
the CPU request (`0` is `NULL`), the device of a queue and its name, the suggested
work-group size, the contents of fresh memory, and the contents of the kernel's output
buffer after the kernel has run over a range (as a function of the element index). -/
structure Env where
  gpu_queue : Nat
  cpu_queue : Nat
  device_id : Nat → Nat
  device_name : Nat → String
  wgs : Nat
  uninit : Buf → Nat → cl_float
  square_kernel : cl_ndrange → Array cl_float → Array cl_float → Nat → cl_float

/-- Append an event to the trace. -/
def emit (e : Event) (s : State) : State :=
  { heap := s.heap, trace := s.trace ++ [e] }

/-- The read `b[i]`. -/
def load (b : Buf) (i : Nat) (s : State) : Except Fault (cl_float × State) :=
  match s.heap.get b with
  | some a =>
    if h : i < a.size then .ok (a[i], emit (Event.load b i) s)
    else .error (Fault.bad_access b i)
  | none => .error (Fault.bad_access b i)

/-- The write `b[i] = v`. -/
def store (b : Buf) (i : Nat) (v : cl_float) (s : State) : Except Fault State :=
  match s.heap.get b with
  | some a =>
    if h : i < a.size then
      .ok { heap := s.heap.set b (some (a.set ⟨i, h⟩ v)),
            trace := s.trace ++ [Event.store b i] }
    else .error (Fault.bad_access b i)
  | none => .error (Fault.bad_access b i)

/-- A call `fprintf(stdout, format, args...)`. -/
def fprintf (format : String) (args : List Arg) (s : State) : State :=
  emit (Event.fprintf format args) s

/-! ## validate -/

/-- The loop of `validate`, with the counter at `i`. -/
def validateLoop (input output : Buf) : Nat → Nat → State → Except Fault (Int × State)
  | 0, _, _ => .error Fault.out_of_fuel
  | fuel + 1, i, s =>
    if i < NUM_VALUES then
      match load output i s with
      | .error f => .error f
      | .ok (o, s) =>
      match load input i s with
      | .error f => .error f
      | .ok (x, s) =>
      match load input i s with
      | .error f => .error f
      | .ok (y, s) =>
      let s := emit (Event.compare i) s
      if cl_float.ne o (cl_float.mul x y) then
        let s := fprintf "Error: Element %d did not match expected output.\n" [Arg.int i] s
        match load output i s with
        | .error f => .error f
        | .ok (o, s) =>
        match load input i s with
        | .error f => .error f
        | .ok (x, s) =>
        match load input i s with
        | .error f => .error f
        | .ok (y, s) =>
        let s := fprintf "       Saw %1.4f, expected %1.4f\n"
          [Arg.float o, Arg.float (cl_float.mul x y)] s
        let s := emit Event.fflush s
        .ok (0, s)
      else validateLoop input output fuel (i + 1) s
    else .ok (1, s)

/-- The function `validate(input, output)`: the loop from counter `0`, with `fuel` bounding
the number of times the loop condition is evaluated. -/
def validate (input output : Buf) (fuel : Nat) (s : State) : Except Fault (Int × State) :=
  validateLoop input output fuel 0 s

/-! ## main -/

/-- The call `gcl_create_dispatch_queue(device_type, NULL)`: the handle comes from the
environment, `0` when no such device is available. -/
def gcl_create_dispatch_queue (env : Env) (device_type : cl_device_type) (s : State) :
    Nat × State :=
  (match device_type with
    | cl_device_type.CL_DEVICE_TYPE_GPU => env.gpu_queue
    | cl_device_type.CL_DEVICE_TYPE_CPU => env.cpu_queue,
   emit (Event.gcl_create_dispatch_queue device_type) s)

/-- The call `malloc(sizeof(cl_float) * count)`, assigned to the pointer `b`: a fresh block
of `count` elements with unspecified contents. -/
def malloc (env : Env) (b : Buf) (count : Nat) (s : State) : State :=
  { heap := s.heap.set b (some (Array.ofFn fun (k : Fin count) => env.uninit b k)),
    trace := s.trace ++ [Event.malloc b count] }

/-- The call `gcl_malloc(sizeof(cl_float) * count, host, flags)`, assigned to the pointer `b`:
a fresh device block of `count` elements, copied from the block `host` when a host pointer is
given (`CL_MEM_COPY_HOST_PTR`), with unspecified contents when it is `NULL`. The host
block must hold at least `count` elements. -/
def gcl_malloc (env : Env) (b : Buf) (count : Nat) (host : Option Buf) (s : State) :
    Except Fault State :=
  match host with
  | none =>
    .ok { heap := s.heap.set b
            (some (Array.ofFn fun (k : Fin count) => env.uninit b k)),
          trace := s.trace ++ [Event.gcl_malloc b count none] }
  | some p =>
    match s.heap.get p with
    | some a =>
      if count ≤ a.size then
        .ok { heap := s.heap.set b
                (some (Array.ofFn fun (k : Fin count) => a.getD k.val cl_float.nan)),
              trace := s.trace ++ [Event.gcl_malloc b count (some p)] }
      else .error (Fault.bad_access p a.size)
    | none => .error (Fault.bad_access p 0)

/-- The call `square_kernel(&range, input, output)`: the output block takes the contents
the environment's kernel leaves there. -/
def square_kernel (env : Env) (range : cl_ndrange) (input output : Buf) (s : State) :
    Except Fault State :=
  match s.heap.get input, s.heap.get output with
  | some a, some o =>
    .ok { heap := s.heap.set output
            (some (Array.ofFn fun (k : Fin o.size) => env.square_kernel range a o k)),
          trace := s.trace ++ [Event.square_kernel range input output] }
  | none, _ => .error (Fault.bad_access input 0)
  | _, none => .error (Fault.bad_access output 0)

/-- The call `gcl_memcpy(dst, src, sizeof(cl_float) * count)`: the first `count` elements
of `dst` become those of `src`; both blocks must hold at least `count` elements. -/
def gcl_memcpy (dst src : Buf) (count : Nat) (s : State) : Except Fault State :=
  match s.heap.get dst, s.heap.get src with
  | some d, some a =>
    if count ≤ d.size ∧ count ≤ a.size then
      .ok { heap := s.heap.set dst
              (some (Array.ofFn fun (k : Fin d.size) =>
                if k.val < count then a.getD k.val cl_float.nan
                else d.getD k.val cl_float.nan)),
            trace := s.trace ++ [Event.gcl_memcpy dst src count] }
    else .error (Fault.bad_access dst count)
  | none, _ => .error (Fault.bad_access dst 0)
  | _, none => .error (Fault.bad_access src 0)

/-- The calls `gcl_free(b)` and `free(b)`: the block must be allocated, and is not
afterwards. -/
def release (e : Event) (b : Buf) (s : State) : Except Fault State :=
  match s.heap.get b with
  | some _ => .ok { heap := s.heap.set b none, trace := s.trace ++ [e] }
  | none => .error (Fault.bad_free b)

/-- Lines 61-77 of `main`: obtain a dispatch queue, GPU first and CPU if that is `NULL`,
then print the name of its device. Returns the queue. -/
def main_queue (env : Env) (s : State) : Nat × State :=
  let (queue, s) := gcl_create_dispatch_queue env cl_device_type.CL_DEVICE_TYPE_GPU s
  let (queue, s) :=
    if queue = 0 then gcl_create_dispatch_queue env cl_device_type.CL_DEVICE_TYPE_CPU s
    else (queue, s)
  let gpu := env.device_id queue
  let s := emit (Event.gcl_get_device_id_with_dispatch_queue queue) s
  let name := env.device_name gpu
  let s := emit (Event.clGetDeviceInfo gpu) s
  let s := fprintf "Created a dispatch queue using the %s\n" [Arg.str name] s
  (queue, s)

/-- Lines 84-86 of `main`: the loop `test_in[i] = (cl_float)i`, with the counter at `i`. -/
def main_fill : Nat → Nat → State → Except Fault State
  | 0, _, _ => .error Fault.out_of_fuel
  | fuel + 1, i, s =>
    if i < NUM_VALUES then
      match store Buf.test_in i (cl_float.ofInt (i : Int)) s with
      | .error f => .error f
      | .ok s => main_fill fuel (i + 1) s
    else .ok s

/-- Sequencing of two steps: a fault of the first step ends the run, otherwise the second
step continues from the result of the first. -/
def andThen {α β : Type} (m : Except Fault α) (k : α → Except Fault β) : Except Fault β :=
  match m with
  | .error f => .error f
  | .ok a => k a

/-- Lines 110-156 of `main`: the block dispatched synchronously on the queue. -/
def main_block (env : Env) (s : State) : Except Fault State :=
  let wgs := env.wgs
  let s := emit Event.gcl_get_kernel_block_workgroup_info s
  let range : cl_ndrange :=
    { work_dim := 1,
      global_work_offset := (0, 0, 0),
      global_work_size := (NUM_VALUES, 0, 0),
      local_work_size := (wgs, 0, 0) }
  andThen (square_kernel env range Buf.mem_in Buf.mem_out s) fun s =>
  gcl_memcpy Buf.test_out Buf.mem_out NUM_VALUES s

/-- The state `main` starts in: nothing allocated, nothing done. -/
def State.init : State :=
  { heap := { test_in := none, test_out := none, mem_in := none, mem_out := none },
    trace := [] }

/-- Lines 57-156 of `main`: everything up to and including the dispatch. Returns the
queue. -/
def main_setup (env : Env) (fuel : Nat) : Except Fault (Nat × State) :=
  let qs := main_queue env State.init
  let queue := qs.1
  let s := malloc env Buf.test_in NUM_VALUES qs.2
  andThen (main_fill fuel 0 s) fun s =>
  let s := malloc env Buf.test_out NUM_VALUES s
  andThen (gcl_malloc env Buf.mem_in NUM_VALUES (some Buf.test_in) s) fun s =>
  andThen (gcl_malloc env Buf.mem_out NUM_VALUES none s) fun s =>
  let s := emit (Event.dispatch_sync queue) s
  andThen (main_block env s) fun s =>
  .ok (queue, s)

/-- Lines 159-162 of `main`: call `validate(test_in, test_out)` and print the success
message when it returns non-zero. -/
def main_check (input output : Buf) (fuel : Nat) (s : State) : Except Fault State :=
  andThen (validate input output fuel s) fun rs =>
  if rs.1 ≠ 0 then .ok (fprintf "All values were properly squared.\n" [] rs.2)
  else .ok rs.2

/-- Lines 164-173 of `main`: free the device and the host memory, release the queue. -/
def main_cleanup (queue : Nat) (s : State) : Except Fault State :=
  andThen (release (Event.gcl_free Buf.mem_in) Buf.mem_in s) fun s =>
  andThen (release (Event.gcl_free Buf.mem_out) Buf.mem_out s) fun s =>
  andThen (release (Event.free Buf.test_in) Buf.test_in s) fun s =>
  andThen (release (Event.free Buf.test_out) Buf.test_out s) fun s =>
  .ok (emit (Event.dispatch_release queue) s)

/-- The function `main`: returns the exit status (`main` ends without a `return`
statement, which is `return 0`) and the final state. Each of its two loops gets `fuel`. -/
def main (env : Env) (fuel : Nat) : Except Fault (Int × State) :=
  andThen (main_setup env fuel) fun qs =>
  andThen (main_check Buf.test_in Buf.test_out fuel qs.2) fun s =>
  andThen (main_cleanup qs.1 s) fun s =>
  .ok (0, s)

/-! ## Vocabulary of the statements -/

/-- The test of `validate` at index `i`, on the contents `a` of the input block and `o` of
the output block: `o[i] != a[i] * a[i]`. -/
def differs (a o : Array cl_float) (i : Nat) : Bool :=
  cl_float.ne (o.getD i cl_float.nan)
    (cl_float.mul (a.getD i cl_float.nan) (a.getD i cl_float.nan))

/-- The events of one iteration of `validate` whose test passes. -/
def passEvents (input output : Buf) (i : Nat) : List Event :=
  [Event.load output i, Event.load input i, Event.load input i, Event.compare i]

/-- The events of `k` passing iterations of `validate` from counter `i`. -/
def passTrace (input output : Buf) : Nat → Nat → List Event
  | _, 0 => []
  | i, k + 1 => passEvents input output i ++ passTrace input output (i + 1) k

/-- The error report of `validate` for index `i`: the two `fprintf` calls with the loads
of their arguments, and the `fflush`. -/
def reportEvents (input output : Buf) (i : Nat) (saw expected : cl_float) : List Event :=
  [Event.fprintf "Error: Element %d did not match expected output.\n" [Arg.int i],
   Event.load output i, Event.load input i, Event.load input i,
   Event.fprintf "       Saw %1.4f, expected %1.4f\n" [Arg.float saw, Arg.float expected],
   Event.fflush]

/-- The `fprintf` calls of a trace, in order. -/
def prints (l : List Event) : List Event :=
  l.filter fun e => match e with
    | Event.fprintf _ _ => true
    | _ => false

/-- The loop-counter values at which the test of `validate` was evaluated, in order. -/
def counters (l : List Event) : List Nat :=
  l.filterMap fun e => match e with
    | Event.compare i => some i
    | _ => none

/-- The queue `main` works with: the GPU queue when it is not `NULL`, otherwise whatever
the CPU request returned. -/
def queueOf (env : Env) : Nat :=
  if env.gpu_queue = 0 then env.cpu_queue else env.gpu_queue

/-- The events of lines 61-77 of `main`. -/
def queueEvents (env : Env) : List Event :=
  Event.gcl_create_dispatch_queue cl_device_type.CL_DEVICE_TYPE_GPU ::
    ((if env.gpu_queue = 0 then
        [Event.gcl_create_dispatch_queue cl_device_type.CL_DEVICE_TYPE_CPU]
      else []) ++
     [Event.gcl_get_device_id_with_dispatch_queue (queueOf env),
      Event.clGetDeviceInfo (env.device_id (queueOf env)),
      Event.fprintf "Created a dispatch queue using the %s\n"
        [Arg.str (env.device_name (env.device_id (queueOf env)))]])

/-- The contents of a block after the loop of lines 84-86 has run over it from counter `i`
with `k` elements to go. -/
def fillArray : Array cl_float → Nat → Nat → Array cl_float
  | a, _, 0 => a
  | a, i, k + 1 => fillArray (a.setD i (cl_float.ofInt (i : Int))) (i + 1) k

/-- The events of `k` iterations of the loop of lines 84-86 from counter `i`. -/
def fillTrace : Nat → Nat → List Event
  | _, 0 => []
  | i, k + 1 => Event.store Buf.test_in i :: fillTrace (i + 1) k

/-- The range `main` dispatches the kernel over. -/
def mainRange (env : Env) : cl_ndrange :=
  { work_dim := 1,
    global_work_offset := (0, 0, 0),
    global_work_size := (NUM_VALUES, 0, 0),
    local_work_size := (env.wgs, 0, 0) }

/-- The events of lines 57-156 of `main`. -/
def setupTrace (env : Env) : List Event :=
  queueEvents env ++ (Event.malloc Buf.test_in NUM_VALUES :: fillTrace 0 NUM_VALUES) ++
    [Event.malloc Buf.test_out NUM_VALUES,
     Event.gcl_malloc Buf.mem_in NUM_VALUES (some Buf.test_in),
     Event.gcl_malloc Buf.mem_out NUM_VALUES none,
     Event.dispatch_sync (queueOf env),
     Event.gcl_get_kernel_block_workgroup_info,
     Event.square_kernel (mainRange env) Buf.mem_in Buf.mem_out,
     Event.gcl_memcpy Buf.test_out Buf.mem_out NUM_VALUES]

/-- The events of lines 164-173 of `main`. -/
def cleanupTrace (queue : Nat) : List Event :=
  [Event.gcl_free Buf.mem_in, Event.gcl_free Buf.mem_out, Event.free Buf.test_in,
   Event.free Buf.test_out, Event.dispatch_release queue]

/-- The contents of `test_in` after the loop of lines 84-86. -/
def hostInput (env : Env) : Array cl_float :=
  fillArray (Array.ofFn fun (k : Fin NUM_VALUES) => env.uninit Buf.test_in k) 0 NUM_VALUES

/-- The contents of `mem_in`: the copy of `test_in` made by `gcl_malloc`. -/
def deviceInput (env : Env) : Array cl_float :=
  Array.ofFn fun (k : Fin NUM_VALUES) => (hostInput env).getD k.val cl_float.nan

/-- The contents of `mem_out` before the kernel runs. -/
def deviceOutputInit (env : Env) : Array cl_float :=
  Array.ofFn fun (k : Fin NUM_VALUES) => env.uninit Buf.mem_out k

/-- The contents of `mem_out` after the kernel has run. -/
def deviceOutput (env : Env) : Array cl_float :=
  Array.ofFn fun (k : Fin (deviceOutputInit env).size) =>
    env.square_kernel (mainRange env) (deviceInput env) (deviceOutputInit env) k

/-- The contents of `test_out` before the copy back. -/
def hostOutputInit (env : Env) : Array cl_float :=
  Array.ofFn fun (k : Fin NUM_VALUES) => env.uninit Buf.test_out k

/-- The contents of `test_out` after `gcl_memcpy`. -/
def hostOutput (env : Env) : Array cl_float :=
  Array.ofFn fun (k : Fin (hostOutputInit env).size) =>
    if k.val < NUM_VALUES then (deviceOutput env).getD k.val cl_float.nan
    else (hostOutputInit env).getD k.val cl_float.nan

/-- The state of `main` after line 156. -/
def setupState (env : Env) : State :=
  { heap := { test_in := some (hostInput env), test_out := some (hostOutput env),
              mem_in := some (deviceInput env), mem_out := some (deviceOutput env) },
    trace := setupTrace env }

/-- The heap with no block allocated. -/
def Heap.empty : Heap :=
  { test_in := none, test_out := none, mem_in := none, mem_out := none }

/-- The events of lines 159-162 of `main` when every test of `validate` passes. -/
def successTrace (input output : Buf) : List Event :=
  passTrace input output 0 NUM_VALUES ++
    [Event.fprintf "All values were properly squared.\n" []]

/-- The events of lines 159-162 of `main` when the test at index `j` is the first to
fail, on the contents `a` of the input block and `o` of the output block. -/
def failureTrace (input output : Buf) (a o : Array cl_float) (j : Nat) : List Event :=
  passTrace input output 0 j ++
    (passEvents input output j ++
      reportEvents input output j (o.getD j cl_float.nan)
        (cl_float.mul (a.getD j cl_float.nan) (a.getD j cl_float.nan)))

/-- The queue requests, the dispatch and the release of a trace, in order. -/
def queueCalls (l : List Event) : List Event :=
  l.filter fun e => match e with
    | Event.gcl_create_dispatch_queue _ => true
    | Event.dispatch_sync _ => true
    | Event.dispatch_release _ => true
    | _ => false

/-- Whether the event frees block `b`. -/
def Event.frees (e : Event) (b : Buf) : Bool :=
  match e with
  | Event.gcl_free c => decide (c = b)
  | Event.free c => decide (c = b)
  | _ => false

/-- Whether the event allocates block `b`. -/
def Event.allocates (e : Event) (b : Buf) : Bool :=
  match e with
  | Event.malloc c _ => decide (c = b)
  | Event.gcl_malloc c _ _ => decide (c = b)
  | _ => false

/-- Whether the event reads or writes block `b`: an element access, or a library call that
is handed the block to read from or write to. -/
def Event.uses (e : Event) (b : Buf) : Bool :=
  match e with
  | Event.load c _ => decide (c = b)
  | Event.store c _ => decide (c = b)
  | Event.gcl_malloc _ _ (some host) => decide (host = b)
  | Event.square_kernel _ input output => decide (input = b) || decide (output = b)
  | Event.gcl_memcpy dst src _ => decide (dst = b) || decide (src = b)
  | _ => false

/-- Whether the event releases a dispatch queue. -/
def Event.isRelease (e : Event) : Bool :=
  match e with
  | Event.dispatch_release _ => true
  | _ => false

/-- A library whose kernel writes `in[k] * in[k]` to `out[k]` for every index `k` of the
range it is dispatched over and leaves the rest of `out` alone; no GPU, CPU queue 7. -/
def squareEnv : Env :=
  { gpu_queue := 0,
    cpu_queue := 7,
    device_id := fun q => q + 100,
    device_name := fun _ => "cpu",
    wgs := 64,
    uninit := fun _ _ => cl_float.nan,
    square_kernel := fun range inp out k =>
      if range.global_work_offset.1 ≤ k ∧
          k < range.global_work_offset.1 + range.global_work_size.1 then
        cl_float.mul (inp.getD k cl_float.nan) (inp.getD k cl_float.nan)
      else out.getD k cl_float.nan }

/-- A library whose kernel writes nothing, with a GPU queue 3: the output keeps its fresh
contents, here NaN everywhere. -/
def idleEnv : Env :=
  { gpu_queue := 3,
    cpu_queue := 7,
    device_id := fun q => q + 100,
    device_name := fun _ => "gpu",
    wgs := 64,
    uninit := fun _ _ => cl_float.nan,
    square_kernel := fun _ _ out k => out.getD k cl_float.nan }

/-- The range of one dimension, offset 0 and global size 1024, with `wgs` work items per
work group. -/
def dispatchedRange (wgs : Nat) : cl_ndrange :=
  { work_dim := 1,
    global_work_offset := (0, 0, 0),
    global_work_size := (1024, 0, 0),
    local_work_size := (wgs, 0, 0) }

/-- Dispatched over the range of one dimension, offset 0 and global size 1024 (with the
suggested work-group size), the kernel writes `in[k] * in[k]` to `out[k]` for every index
`k` of that range, that is for every `k` in `[0, 1024)`. Nothing is asked of the kernel on
any other range. -/
def KernelSquares (env : Env) : Prop :=
  ∀ (inp out : Array cl_float) (k : Nat) (hk : k < inp.size), k < 1024 →
    env.square_kernel (dispatchedRange env.wgs) inp out k = cl_float.mul inp[k] inp[k]

/-- A library whose kernel squares on the range of one dimension, offset 0, global size 1024
and local size 64 only, and writes NaN when dispatched over any other range. -/
def exactRangeEnv : Env :=
  { gpu_queue := 0,
    cpu_queue := 7,
    device_id := fun q => q + 100,
    device_name := fun _ => "cpu",
    wgs := 64,
    uninit := fun _ _ => cl_float.nan,
    square_kernel := fun range inp _ k =>
      if range = dispatchedRange 64 ∧ k < 1024 then
        cl_float.mul (inp.getD k cl_float.nan) (inp.getD k cl_float.nan)
      else cl_float.nan }

/-- The kernel calls of a trace, in order. -/
def kernelCalls (l : List Event) : List Event :=
  l.filter fun e => match e with
    | Event.square_kernel _ _ _ => true
    | _ => false

/-- An input block of `NUM_VALUES` elements holding 2 everywhere. -/
def sampleIn : Array cl_float := Array.mkArray NUM_VALUES (cl_float.ofInt 2)

/-- An output block of `NUM_VALUES` elements holding 4 everywhere, except for a 5 at
index 0 when `bad` is set. -/
def sampleOut (bad : Bool) : Array cl_float :=
  (Array.mkArray NUM_VALUES (cl_float.ofInt 4)).setD 0 (cl_float.ofInt (if bad then 5 else 4))

/-- A state holding `sampleIn` as `test_in` and `sampleOut bad` as `test_out`. -/
def sampleState (bad : Bool) : State :=
  { heap :=
      { test_in := some sampleIn,
        test_out := some (sampleOut bad),
        mem_in := none,
        mem_out := none },
    trace := [] }

/-- The state `validate(test_in, test_out)` leaves when started in `sampleState true`: the
test at index 0 fails, 5 against 2 * 2. -/
def sampleFailed : State :=
  { heap := (sampleState true).heap,
    trace := passEvents Buf.test_in Buf.test_out 0 ++
      reportEvents Buf.test_in Buf.test_out 0 (cl_float.ofInt 5)
        (cl_float.mul (cl_float.ofInt 2) (cl_float.ofInt 2)) }

/-- The datum fits the binary32 format: a finite one has a significand of at most 24 bits
and an exponent in range. -/
def cl_float.Representable : cl_float → Prop
  | cl_float.finite _ m e => m < 2 ^ 24 ∧ -149 ≤ e ∧ e ≤ 104
  | _ => True


/-! ## Facts about single-precision numbers -/

theorem bitLengthAux_le_iff : ∀ (fuel n k : Nat), n ≤ fuel →
    (bitLengthAux fuel n ≤ k ↔ n < 2 ^ k) := by
  intro fuel
  induction fuel with
  | zero =>
    intro n k hn
    have h0 : n = 0 := by omega
    subst h0
    simp [bitLengthAux]
  | succ fuel ih =>
    intro n k hn
    unfold bitLengthAux
    by_cases h0 : n = 0
    · subst h0
      simp
    · rw [if_neg h0]
      cases k with
      | zero =>
        simp only [pow_zero]
        omega
      | succ k =>
        have hdiv : n / 2 ≤ fuel := by omega
        have := ih (n / 2) k hdiv
        rw [Nat.add_le_add_iff_right, this, pow_succ]
        omega

theorem bitLength_le_iff (n k : Nat) : bitLength n ≤ k ↔ n < 2 ^ k :=
  bitLengthAux_le_iff n n k (Nat.le_refl n)

theorem lt_two_pow_bitLength (n : Nat) : n < 2 ^ bitLength n :=
  (bitLength_le_iff n (bitLength n)).1 (Nat.le_refl _)

theorem bitLength_pos {n : Nat} (hn : n ≠ 0) : 0 < bitLength n := by
  rcases Nat.eq_zero_or_pos (bitLength n) with h | h
  · have := (bitLength_le_iff n 0).1 (by omega)
    simp at this
    exact absurd this hn
  · exact h

theorem two_pow_le_of_bitLength {n : Nat} (hn : n ≠ 0) : 2 ^ (bitLength n - 1) ≤ n := by
  have hpos := bitLength_pos hn
  by_contra hlt
  have := (bitLength_le_iff n (bitLength n - 1)).2 (by omega)
  omega

theorem bitLength_mul_pow (n k : Nat) (hn : n ≠ 0) :
    bitLength (n * 2 ^ k) = bitLength n + k := by
  apply Nat.le_antisymm
  · rw [bitLength_le_iff, pow_add]
    exact Nat.mul_lt_mul_of_pos_right (lt_two_pow_bitLength n) (by positivity)
  · by_contra hlt
    have hpos := bitLength_pos hn
    have h1 : bitLength (n * 2 ^ k) ≤ (bitLength n - 1) + k := by omega
    rw [bitLength_le_iff, pow_add] at h1
    have h2 := two_pow_le_of_bitLength hn
    have h3 : 2 ^ (bitLength n - 1) * 2 ^ k ≤ n * 2 ^ k := Nat.mul_le_mul_right _ h2
    omega

namespace cl_float

/-- A non-zero natural number below `2^24`, scaled by any power of two and rescaled back,
rounds to itself: its normalised representation. -/
theorem round_small (neg : Bool) (n k : Nat) (h0 : n ≠ 0) (h : n < 2 ^ 24) :
    round neg (n * 2 ^ k) (-(k : Int)) =
      finite neg (n * 2 ^ (24 - bitLength n)) (-((24 - bitLength n : Nat) : Int)) := by
  have hb24 : bitLength n ≤ 24 := (bitLength_le_iff n 24).2 h
  have hpos := bitLength_pos h0
  have hm : n * 2 ^ k ≠ 0 := by positivity
  have hbits : bitLength (n * 2 ^ k) = bitLength n + k := bitLength_mul_pow n k h0
  have he : max (-(k : Int) + ((bitLength (n * 2 ^ k) : Nat) : Int) - 24) (-149)
      = -((24 - bitLength n : Nat) : Int) := by
    rw [hbits]
    omega
  unfold round
  rw [if_neg hm]
  simp only [he]
  by_cases hk : k ≤ 24 - bitLength n
  · have hle : -((24 - bitLength n : Nat) : Int) ≤ -(k : Int) := by omega
    rw [if_pos hle, if_neg (by omega)]
    have hs : (-(k : Int) - -((24 - bitLength n : Nat) : Int)).toNat = 24 - bitLength n - k := by
      omega
    rw [hs, Nat.mul_assoc, ← pow_add]
    congr 3
    omega
  · have hle : ¬ -((24 - bitLength n : Nat) : Int) ≤ -(k : Int) := by omega
    rw [if_neg hle]
    have hs : (-((24 - bitLength n : Nat) : Int) - -(k : Int)).toNat = k - (24 - bitLength n) := by
      omega
    rw [hs]
    have hsplit : n * 2 ^ k = n * 2 ^ (24 - bitLength n) * 2 ^ (k - (24 - bitLength n)) := by
      rw [Nat.mul_assoc, ← pow_add]
      congr 2
      omega
    have hq : n * 2 ^ k / 2 ^ (k - (24 - bitLength n)) = n * 2 ^ (24 - bitLength n) := by
      rw [hsplit]
      exact Nat.mul_div_cancel _ (by positivity)
    have hr : n * 2 ^ k % 2 ^ (k - (24 - bitLength n)) = 0 := by
      rw [hsplit]
      exact Nat.mul_mod_left _ _
    have hlt : n * 2 ^ (24 - bitLength n) < 2 ^ 24 := by
      have h1 := lt_two_pow_bitLength n
      have h2 : 2 ^ bitLength n * 2 ^ (24 - bitLength n) = 2 ^ 24 := by
        rw [← pow_add]
        congr 1
        omega
      have h3 : n * 2 ^ (24 - bitLength n) < 2 ^ bitLength n * 2 ^ (24 - bitLength n) :=
        Nat.mul_lt_mul_of_pos_right h1 (by positivity)
      omega
    have hhalf : 0 < 2 ^ (k - (24 - bitLength n) - 1) := by positivity
    rw [hq, hr]
    have hup : ¬ (2 ^ (k - (24 - bitLength n) - 1) < 0 ∨
        (0 = 2 ^ (k - (24 - bitLength n) - 1) ∧ n * 2 ^ (24 - bitLength n) % 2 = 1)) := by
      omega
    rw [if_neg hup, if_neg (by omega), if_neg (by omega)]

end cl_float

namespace cl_float

/-- The normalised representation of a natural number below `2^24`. -/
theorem ofInt_natCast (n : Nat) (h0 : n ≠ 0) (h : n < 2 ^ 24) :
    ofInt (n : Int) =
      finite false (n * 2 ^ (24 - bitLength n)) (-((24 - bitLength n : Nat) : Int)) := by
  have h1 := round_small false n 0 h0 h
  simp only [pow_zero, Nat.mul_one, Nat.cast_zero, neg_zero] at h1
  unfold ofInt
  have h2 : decide ((n : Int) < 0) = false := by simp
  rw [h2, Int.natAbs_ofNat]
  exact h1

theorem ofInt_zero : ofInt 0 = finite false 0 (-149) := by decide

theorem toRat_normalised (neg : Bool) (n t : Nat) :
    toRat (finite neg (n * 2 ^ t) (-(t : Int))) = some ((if neg then -1 else 1) * (n : ℚ)) := by
  simp only [toRat, Option.some.injEq]
  have h2 : ((2 : ℚ) ^ t) ≠ 0 := by positivity
  rw [zpow_neg, zpow_natCast]
  push_cast
  field_simp

/-- Conversion of a natural number below `2^24` is exact. -/
theorem toRat_ofInt_natCast (n : Nat) (h : n < 2 ^ 24) : toRat (ofInt (n : Int)) = some (n : ℚ) := by
  by_cases h0 : n = 0
  · subst h0
    simp [ofInt_zero, toRat]
  · rw [ofInt_natCast n h0 h, toRat_normalised]
    simp

/-- The product of two natural numbers is exact when it is below `2^24`. -/
theorem mul_ofInt_natCast (a b : Nat) (ha : a < 2 ^ 24) (hb : b < 2 ^ 24)
    (hab : a * b < 2 ^ 24) :
    mul (ofInt (a : Int)) (ofInt (b : Int)) = ofInt ((a * b : Nat) : Int) := by
  by_cases ha0 : a = 0
  · subst ha0
    by_cases hb0 : b = 0
    · subst hb0
      decide
    · rw [ofInt_natCast b hb0 hb]
      simp [ofInt_zero, mul, round]
  · by_cases hb0 : b = 0
    · subst hb0
      rw [ofInt_natCast a ha0 ha]
      simp [ofInt_zero, mul, round]
    · have hab0 : a * b ≠ 0 := Nat.mul_ne_zero ha0 hb0
      rw [ofInt_natCast a ha0 ha, ofInt_natCast b hb0 hb, ofInt_natCast (a * b) hab0 hab]
      simp only [mul, Bool.xor_false]
      have hm : a * 2 ^ (24 - bitLength a) * (b * 2 ^ (24 - bitLength b))
          = (a * b) * 2 ^ ((24 - bitLength a) + (24 - bitLength b)) := by
        rw [pow_add]
        ring
      have he : -((24 - bitLength a : Nat) : Int) + -((24 - bitLength b : Nat) : Int)
          = -(((24 - bitLength a) + (24 - bitLength b) : Nat) : Int) := by
        push_cast
        ring
      rw [hm, he]
      exact round_small false (a * b) _ hab0 hab

theorem two_zpow_split (e k : Int) (hk : k ≤ e) :
    (2 : ℚ) ^ e = ((2 ^ (e - k).toNat : Nat) : ℚ) * (2 : ℚ) ^ k := by
  have h1 : e = ((e - k).toNat : Int) + k := by
    rw [Int.toNat_of_nonneg (by omega)]
    ring
  conv_lhs => rw [h1]
  rw [zpow_add₀ (by norm_num : (2 : ℚ) ≠ 0), zpow_natCast]
  push_cast
  rfl

/-- On finite data `!=` compares the values. -/
theorem ne_finite_iff (s t : Bool) (m n : Nat) (e f : Int) :
    ne (finite s m e) (finite t n f) = true ↔
      toRat (finite s m e) ≠ toRat (finite t n f) := by
  have hk : (2 : ℚ) ^ (min e f) ≠ 0 := zpow_ne_zero _ (by norm_num)
  have h1 := two_zpow_split e (min e f) (min_le_left e f)
  have h2 := two_zpow_split f (min e f) (min_le_right e f)
  simp only [ne, toRat, ne_eq, Option.some.injEq]
  rw [h1, h2]
  generalize (e - min e f).toNat = p
  generalize (f - min e f).toNat = q
  have cancel : ∀ (x y : ℚ), x * (2 : ℚ) ^ (min e f) = y * (2 : ℚ) ^ (min e f) ↔ x = y :=
    fun x y => mul_left_inj' hk
  have e1 : ∀ (c : ℚ), c * (m : ℚ) * (((2 ^ p : Nat) : ℚ) * (2 : ℚ) ^ (min e f))
      = (c * ((m * 2 ^ p : Nat) : ℚ)) * (2 : ℚ) ^ (min e f) := by
    intro c
    push_cast
    ring
  have e2 : ∀ (c : ℚ), c * (n : ℚ) * (((2 ^ q : Nat) : ℚ) * (2 : ℚ) ^ (min e f))
      = (c * ((n * 2 ^ q : Nat) : ℚ)) * (2 : ℚ) ^ (min e f) := by
    intro c
    push_cast
    ring
  rw [e1, e2, cancel]
  generalize m * 2 ^ p = a
  generalize n * 2 ^ q = b
  have ha : (0 : ℚ) ≤ (a : ℚ) := Nat.cast_nonneg a
  have hb : (0 : ℚ) ≤ (b : ℚ) := Nat.cast_nonneg b
  cases s <;> cases t <;> simp
  · omega
  · constructor
    · intro h hab
      have ha0 : (a : ℚ) = 0 := by linarith
      have hb0 : (b : ℚ) = 0 := by linarith
      have ha1 : a = 0 := by exact_mod_cast ha0
      have hb1 : b = 0 := by exact_mod_cast hb0
      omega
    · intro h
      by_contra hc
      have ha1 : a = 0 := by omega
      have hb1 : b = 0 := by omega
      subst ha1
      subst hb1
      simp at h
  · constructor
    · intro h hab
      have ha0 : (a : ℚ) = 0 := by linarith
      have hb0 : (b : ℚ) = 0 := by linarith
      have ha1 : a = 0 := by exact_mod_cast ha0
      have hb1 : b = 0 := by exact_mod_cast hb0
      omega
    · intro h
      by_contra hc
      have ha1 : a = 0 := by omega
      have hb1 : b = 0 := by omega
      subst ha1
      subst hb1
      simp at h
  · omega

/-- Against a finite datum, `!=` holds exactly when the other side does not stand for the
same number. -/
theorem ne_iff_toRat_ne (x y : cl_float) (v : ℚ) (hy : toRat y = some v) :
    ne x y = true ↔ toRat x ≠ some v := by
  cases y with
  | finite t n f =>
    cases x with
    | finite s m e => rw [ne_finite_iff, hy]
    | inf s => simp [ne, toRat]
    | nan => simp [ne, toRat]
  | inf t => simp [toRat] at hy
  | nan => simp [toRat] at hy

end cl_float

/-! ## The loop of validate -/

theorem load_eq (b : Buf) (i : Nat) (s : State) (a : Array cl_float)
    (hb : s.heap.get b = some a) (hi : i < a.size) :
    load b i s = .ok (a[i], emit (Event.load b i) s) := by
  simp [load, hb, hi]

theorem getD_eq (a : Array cl_float) (i : Nat) (hi : i < a.size) :
    a.getD i cl_float.nan = a[i] := by
  simp [Array.getD, hi]

/-- One iteration of the loop of `validate`. -/
theorem validateLoop_step (input output : Buf) (a o : Array cl_float)
    (fuel i : Nat) (s : State) (hi : i < NUM_VALUES)
    (ha : NUM_VALUES ≤ a.size) (ho : NUM_VALUES ≤ o.size)
    (hin : s.heap.get input = some a) (hout : s.heap.get output = some o) :
    validateLoop input output (fuel + 1) i s =
      if differs a o i = true then
        .ok (0, { heap := s.heap,
                  trace := s.trace ++ (passEvents input output i ++
                    reportEvents input output i (o.getD i cl_float.nan)
                      (cl_float.mul (a.getD i cl_float.nan) (a.getD i cl_float.nan))) })
      else
        validateLoop input output fuel (i + 1)
          { heap := s.heap, trace := s.trace ++ passEvents input output i } := by
  have hia : i < a.size := by omega
  have hio : i < o.size := by omega
  rw [validateLoop, if_pos hi]
  simp only [differs, getD_eq a i hia, getD_eq o i hio]
  simp [load_eq, emit, fprintf, hin, hout, hia, hio, passEvents, reportEvents]

/-- The loop of `validate` from counter `i` with `k` elements to go: either it finds the
least index `j ≥ i` whose test fails, reports it and returns 0, or every test passes and it
returns 1. The heap is untouched and the trace grows by the events listed. -/
theorem validateLoop_spec (input output : Buf) (a o : Array cl_float)
    (ha : NUM_VALUES ≤ a.size) (ho : NUM_VALUES ≤ o.size) :
    ∀ (k i fuel : Nat) (s : State), i + k = NUM_VALUES → k < fuel →
      s.heap.get input = some a → s.heap.get output = some o →
      (∃ j, i ≤ j ∧ j < NUM_VALUES ∧ (∀ l, i ≤ l → l < j → differs a o l = false) ∧
          differs a o j = true ∧
          validateLoop input output fuel i s =
            .ok (0, { heap := s.heap,
                      trace := s.trace ++ (passTrace input output i (j - i) ++
                        (passEvents input output j ++
                          reportEvents input output j (o.getD j cl_float.nan)
                            (cl_float.mul (a.getD j cl_float.nan)
                              (a.getD j cl_float.nan)))) }))
      ∨ ((∀ l, i ≤ l → l < NUM_VALUES → differs a o l = false) ∧
          validateLoop input output fuel i s =
            .ok (1, { heap := s.heap, trace := s.trace ++ passTrace input output i k })) := by
  intro k
  induction k with
  | zero =>
    intro i fuel s hik hfuel hin hout
    right
    refine ⟨fun l h1 h2 => by omega, ?_⟩
    obtain ⟨fuel, rfl⟩ : ∃ f, fuel = f + 1 := ⟨fuel - 1, by omega⟩
    rw [validateLoop, if_neg (by omega)]
    simp [passTrace]
  | succ k ih =>
    intro i fuel s hik hfuel hin hout
    obtain ⟨fuel, rfl⟩ : ∃ f, fuel = f + 1 := ⟨fuel - 1, by omega⟩
    have hi : i < NUM_VALUES := by omega
    rw [validateLoop_step input output a o fuel i s hi ha ho hin hout]
    by_cases hd : differs a o i = true
    · left
      refine ⟨i, Nat.le_refl _, hi, fun l h1 h2 => by omega, hd, ?_⟩
      rw [if_pos hd]
      simp [passTrace]
    · rw [if_neg hd]
      have hd' : differs a o i = false := by simpa using hd
      rcases ih (i + 1) fuel { heap := s.heap, trace := s.trace ++ passEvents input output i }
        (by omega) (by omega) hin hout with ⟨j, hij, hj, hbefore, hat, hrun⟩ | ⟨hall, hrun⟩
      · left
        refine ⟨j, by omega, hj, ?_, hat, ?_⟩
        · intro l h1 h2
          by_cases hl : l = i
          · subst hl
            exact hd'
          · exact hbefore l (by omega) h2
        · rw [hrun]
          have hji : j - i = (j - (i + 1)) + 1 := by omega
          rw [hji]
          simp [passTrace, List.append_assoc]
      · right
        refine ⟨?_, ?_⟩
        · intro l h1 h2
          by_cases hl : l = i
          · subst hl
            exact hd'
          · exact hall l (by omega) h2
        · rw [hrun]
          simp [passTrace, List.append_assoc]

/-! ## The events of validate -/

theorem prints_append (l₁ l₂ : List Event) : prints (l₁ ++ l₂) = prints l₁ ++ prints l₂ := by
  simp [prints]

theorem counters_append (l₁ l₂ : List Event) :
    counters (l₁ ++ l₂) = counters l₁ ++ counters l₂ := by
  simp [counters]

theorem prints_passTrace (input output : Buf) (k : Nat) :
    ∀ i, prints (passTrace input output i k) = [] := by
  induction k with
  | zero => intro i; rfl
  | succ k ih =>
    intro i
    rw [passTrace, prints_append, ih]
    rfl

theorem counters_passTrace (input output : Buf) (k : Nat) :
    ∀ i, counters (passTrace input output i k) = List.range' i k := by
  induction k with
  | zero => intro i; rfl
  | succ k ih =>
    intro i
    rw [passTrace, counters_append, ih, List.range'_succ]
    rfl

theorem mem_passTrace (input output : Buf) (e : Event) (k : Nat) :
    ∀ i, e ∈ passTrace input output i k →
      ∃ l, i ≤ l ∧ l < i + k ∧ e ∈ passEvents input output l := by
  induction k with
  | zero => intro i h; simp [passTrace] at h
  | succ k ih =>
    intro i h
    rw [passTrace, List.mem_append] at h
    rcases h with h | h
    · exact ⟨i, Nat.le_refl _, by omega, h⟩
    · obtain ⟨l, h1, h2, h3⟩ := ih (i + 1) h
      exact ⟨l, by omega, by omega, h3⟩

/-- The run of `validate` on two blocks of at least `NUM_VALUES` elements, for any fuel
above `NUM_VALUES`. -/
theorem validateLoop_from_zero (input output : Buf) (a o : Array cl_float) (s : State)
    (fuel : Nat) (hfuel : NUM_VALUES < fuel)
    (ha : NUM_VALUES ≤ a.size) (ho : NUM_VALUES ≤ o.size)
    (hin : s.heap.get input = some a) (hout : s.heap.get output = some o) :
    (∃ j, j < NUM_VALUES ∧ (∀ l, l < j → differs a o l = false) ∧ differs a o j = true ∧
        validateLoop input output fuel 0 s =
          .ok (0, { heap := s.heap,
                    trace := s.trace ++ (passTrace input output 0 j ++
                      (passEvents input output j ++
                        reportEvents input output j (o.getD j cl_float.nan)
                          (cl_float.mul (a.getD j cl_float.nan)
                            (a.getD j cl_float.nan)))) }))
    ∨ ((∀ l, l < NUM_VALUES → differs a o l = false) ∧
        validateLoop input output fuel 0 s =
          .ok (1, { heap := s.heap,
                    trace := s.trace ++ passTrace input output 0 NUM_VALUES })) := by
  rcases validateLoop_spec input output a o ha ho NUM_VALUES 0 fuel s (by omega) hfuel hin hout
    with ⟨j, _, hj, hbefore, hat, hrun⟩ | ⟨hall, hrun⟩
  · left
    exact ⟨j, hj, fun l hl => hbefore l (Nat.zero_le _) hl, hat, by simpa using hrun⟩
  · right
    exact ⟨fun l hl => hall l (Nat.zero_le _) hl, hrun⟩

theorem differs_eq (a o : Array cl_float) (i : Nat) (hia : i < a.size) (hio : i < o.size) :
    differs a o i = cl_float.ne o[i] (cl_float.mul a[i] a[i]) := by
  rw [differs, getD_eq a i hia, getD_eq o i hio]

/-! ## Claims about validate -/

/-- C1: on two blocks of 1024 elements (and with fuel above `NUM_VALUES`) `validate`
returns 1 if and only if
`output[i] == input[i] * input[i]` (that is, `!=` is false) for every `i` in `[0, 1024)`,
and returns 0 otherwise. -/
theorem validate_returns_one_iff (input output : Buf) (s : State) (a o : Array cl_float)
    (hin : s.heap.get input = some a) (hout : s.heap.get output = some o)
    (ha : a.size = 1024) (ho : o.size = 1024) (fuel : Nat) (hfuel : NUM_VALUES < fuel) :
    ∃ r s', validate input output fuel s = .ok (r, s') ∧
      (r = 1 ↔ ∀ i (hi : i < 1024), cl_float.ne o[i] (cl_float.mul a[i] a[i]) = false) ∧
      (r ≠ 1 → r = 0) := by
  have ha' : NUM_VALUES ≤ a.size := by simp [NUM_VALUES, ha]
  have ho' : NUM_VALUES ≤ o.size := by simp [NUM_VALUES, ho]
  rcases validateLoop_from_zero input output a o s fuel hfuel
    ha' ho' hin hout with ⟨j, hj, _, hat, hrun⟩ | ⟨hall, hrun⟩
  · refine ⟨0, _, hrun, ?_, fun _ => rfl⟩
    have hj' : j < 1024 := hj
    constructor
    · intro h
      exact absurd h (by decide)
    · intro h
      have := h j hj'
      rw [differs_eq a o j (by omega) (by omega)] at hat
      rw [this] at hat
      exact absurd hat (by decide)
  · refine ⟨1, _, hrun, ?_, fun h => absurd rfl h⟩
    constructor
    · intro _ i hi
      have := hall i hi
      rwa [differs_eq a o i (by omega) (by omega)] at this
    · intro _
      rfl

theorem prints_fail (input output : Buf) (j : Nat) (saw expected : cl_float) :
    prints (passTrace input output 0 j ++
      (passEvents input output j ++ reportEvents input output j saw expected)) =
    [Event.fprintf "Error: Element %d did not match expected output.\n" [Arg.int j],
     Event.fprintf "       Saw %1.4f, expected %1.4f\n" [Arg.float saw, Arg.float expected]] := by
  rw [prints_append, prints_passTrace, prints_append]
  rfl

theorem counters_fail (input output : Buf) (j : Nat) (saw expected : cl_float) :
    counters (passTrace input output 0 j ++
      (passEvents input output j ++ reportEvents input output j saw expected)) =
    List.range (j + 1) := by
  rw [counters_append, counters_passTrace, counters_append, List.range_succ,
    List.range_eq_range']
  rfl

theorem mem_passEvents (input output : Buf) (e : Event) (l : Nat)
    (h : e ∈ passEvents input output l) :
    e = Event.load output l ∨ e = Event.load input l ∨ e = Event.compare l := by
  simp only [passEvents, List.mem_cons, List.mem_singleton] at h
  rcases h with h | h | h | h | h
  · exact Or.inl h
  · exact Or.inr (Or.inl h)
  · exact Or.inr (Or.inl h)
  · exact Or.inr (Or.inr h)
  · cases h

theorem mem_reportEvents (input output : Buf) (e : Event) (l : Nat) (saw expected : cl_float)
    (h : e ∈ reportEvents input output l saw expected) :
    e = Event.load output l ∨ e = Event.load input l ∨
      (∃ f args, e = Event.fprintf f args) ∨ e = Event.fflush := by
  simp only [reportEvents, List.mem_cons, List.mem_singleton] at h
  rcases h with h | h | h | h | h | h | h
  · exact Or.inr (Or.inr (Or.inl ⟨_, _, h⟩))
  · exact Or.inl h
  · exact Or.inr (Or.inl h)
  · exact Or.inr (Or.inl h)
  · exact Or.inr (Or.inr (Or.inl ⟨_, _, h⟩))
  · exact Or.inr (Or.inr (Or.inr h))
  · cases h

/-- Every event of a failing run of `validate` that stops at index `j`. -/
theorem mem_fail (input output : Buf) (e : Event) (j : Nat) (saw expected : cl_float)
    (h : e ∈ passTrace input output 0 j ++
      (passEvents input output j ++ reportEvents input output j saw expected)) :
    (∃ l, l ≤ j ∧ (e = Event.load output l ∨ e = Event.load input l ∨ e = Event.compare l))
      ∨ (∃ f args, e = Event.fprintf f args) ∨ e = Event.fflush := by
  rw [List.mem_append, List.mem_append] at h
  rcases h with h | h | h
  · obtain ⟨l, _, h2, h3⟩ := mem_passTrace input output e j 0 h
    exact Or.inl ⟨l, by omega, mem_passEvents input output e l h3⟩
  · exact Or.inl ⟨j, Nat.le_refl _, mem_passEvents input output e j h⟩
  · rcases mem_reportEvents input output e j saw expected h with h | h | h | h
    · exact Or.inl ⟨j, Nat.le_refl _, Or.inl h⟩
    · exact Or.inl ⟨j, Nat.le_refl _, Or.inr (Or.inl h)⟩
    · exact Or.inr (Or.inl h)
    · exact Or.inr (Or.inr h)

/-- Every event of a passing run of `validate`. -/
theorem mem_pass (input output : Buf) (e : Event)
    (h : e ∈ passTrace input output 0 NUM_VALUES) :
    ∃ l, l < NUM_VALUES ∧
      (e = Event.load output l ∨ e = Event.load input l ∨ e = Event.compare l) := by
  obtain ⟨l, _, h2, h3⟩ := mem_passTrace input output e NUM_VALUES 0 h
  exact ⟨l, by omega, mem_passEvents input output e l h3⟩

/-- C6: when `validate` returns 0 it has printed exactly one error report (its two
`fprintf` calls and nothing else); the index in the report is the least `i` in `[0, 1024)`
with `output[i] != input[i] * input[i]`, the value after "Saw" is `output[i]`, the value
after "expected" is `input[i] * input[i]`, and no element after index `i` has been read. -/
theorem validate_reports_least_mismatch (input output : Buf) (s s' : State)
    (a o : Array cl_float)
    (hin : s.heap.get input = some a) (hout : s.heap.get output = some o)
    (ha : a.size = 1024) (ho : o.size = 1024) (fuel : Nat) (hfuel : NUM_VALUES < fuel)
    (h0 : validate input output fuel s = .ok (0, s')) :
    ∃ (i : Nat) (hi : i < 1024) (l : List Event),
      s'.trace = s.trace ++ l ∧
      prints l =
        [Event.fprintf "Error: Element %d did not match expected output.\n" [Arg.int i],
         Event.fprintf "       Saw %1.4f, expected %1.4f\n"
           [Arg.float o[i], Arg.float (cl_float.mul a[i] a[i])]] ∧
      cl_float.ne o[i] (cl_float.mul a[i] a[i]) = true ∧
      (∀ j (hj : j < i), cl_float.ne o[j] (cl_float.mul a[j] a[j]) = false) ∧
      (∀ b j, Event.load b j ∈ l → j ≤ i) := by
  have ha' : NUM_VALUES ≤ a.size := by simp [NUM_VALUES, ha]
  have ho' : NUM_VALUES ≤ o.size := by simp [NUM_VALUES, ho]
  rcases validateLoop_from_zero input output a o s fuel hfuel
    ha' ho' hin hout with ⟨j, hj, hbefore, hat, hrun⟩ | ⟨_, hrun⟩
  · have hj' : j < 1024 := hj
    have hs' := h0.symm.trans hrun
    simp only [Except.ok.injEq, Prod.mk.injEq, true_and] at hs'
    subst hs'
    refine ⟨j, hj', _, rfl, ?_, ?_, ?_, ?_⟩
    · rw [prints_fail, getD_eq a j (by omega), getD_eq o j (by omega)]
    · rw [← differs_eq a o j (by omega) (by omega)]
      exact hat
    · intro l hl
      rw [← differs_eq a o l (by omega) (by omega)]
      exact hbefore l hl
    · intro b l hmem
      rcases mem_fail input output _ j _ _ hmem with ⟨l', hl', h | h | h⟩ | ⟨f, args, h⟩ | h
      · cases h
        exact hl'
      · cases h
        exact hl'
      · cases h
      · cases h
      · cases h
  · have := h0.symm.trans hrun
    simp at this

/-- C7: on two blocks of 1024 elements `validate` terminates: every amount of fuel above
`NUM_VALUES` (1025 evaluations of the loop condition are enough) gives one and the same
result, never the out-of-fuel fault; the loop counter takes the values `0, 1, ..., m - 1`
in this order at the tests performed, and `m ≤ 1024`, so at most 1024 comparisons are
made. -/
theorem validate_terminates (input output : Buf) (s : State) (a o : Array cl_float)
    (hin : s.heap.get input = some a) (hout : s.heap.get output = some o)
    (ha : a.size = 1024) (ho : o.size = 1024) :
    ∃ (r : Int) (s' : State) (l : List Event) (m : Nat),
      (∀ fuel, NUM_VALUES < fuel → validate input output fuel s = .ok (r, s')) ∧
      s'.trace = s.trace ++ l ∧
      counters l = List.range m ∧ m ≤ 1024 ∧ (counters l).length ≤ 1024 := by
  have ha' : NUM_VALUES ≤ a.size := by simp [NUM_VALUES, ha]
  have ho' : NUM_VALUES ≤ o.size := by simp [NUM_VALUES, ho]
  rcases validateLoop_from_zero input output a o s (NUM_VALUES + 1) (Nat.lt_succ_self _)
    ha' ho' hin hout with ⟨j, hj, hbefore, hat, _⟩ | ⟨hall, _⟩
  · have hj' : j < 1024 := hj
    refine ⟨0, { heap := s.heap, trace := s.trace ++ failureTrace input output a o j },
      failureTrace input output a o j, j + 1, ?_, rfl, counters_fail _ _ _ _ _,
      by omega, ?_⟩
    · intro fuel hfuel
      rcases validateLoop_from_zero input output a o s fuel hfuel ha' ho' hin hout
        with ⟨j', hj', hbefore', hat', hrun'⟩ | ⟨hall', _⟩
      · have hjj : j' = j := by
          rcases Nat.lt_trichotomy j' j with h | h | h
          · have := hbefore j' h
            rw [this] at hat'
            cases hat'
          · exact h
          · have := hbefore' j h
            rw [this] at hat
            cases hat
        subst hjj
        exact hrun'
      · have := hall' j hj
        rw [this] at hat
        cases hat
    · rw [failureTrace, counters_fail, List.length_range]
      omega
  · refine ⟨1, { heap := s.heap, trace := s.trace ++ passTrace input output 0 NUM_VALUES },
      passTrace input output 0 NUM_VALUES, NUM_VALUES, ?_, rfl, ?_, Nat.le_refl _, ?_⟩
    · intro fuel hfuel
      rcases validateLoop_from_zero input output a o s fuel hfuel ha' ho' hin hout
        with ⟨j', hj', _, hat', _⟩ | ⟨_, hrun'⟩
      · have := hall j' hj'
        rw [this] at hat'
        cases hat'
      · exact hrun'
    · rw [counters_passTrace, List.range_eq_range']
    · rw [counters_passTrace, List.length_range']
      exact Nat.le_refl _

/-- C10: on two blocks of at least 1024 elements `validate` returns 0 or 1 without a
fault, the contents of every block are what they were before the call, and the events of
the call are reads of `input` or `output` at an index in `[0, 1024)`, tests, `fprintf` and
`fflush` calls: no write, and no read outside `[0, 1024)`. -/
theorem validate_read_only_in_bounds (input output : Buf) (s : State) (a o : Array cl_float)
    (hin : s.heap.get input = some a) (hout : s.heap.get output = some o)
    (ha : 1024 ≤ a.size) (ho : 1024 ≤ o.size) (fuel : Nat) (hfuel : NUM_VALUES < fuel) :
    ∃ (r : Int) (s' : State) (l : List Event),
      validate input output fuel s = .ok (r, s') ∧ (r = 0 ∨ r = 1) ∧
      s'.heap = s.heap ∧ s'.heap.get input = some a ∧ s'.heap.get output = some o ∧
      s'.trace = s.trace ++ l ∧
      (∀ b i, Event.load b i ∈ l → i < 1024 ∧ i < a.size ∧ i < o.size ∧
        (b = input ∨ b = output)) ∧
      (∀ b i, Event.store b i ∉ l) ∧
      (∀ e ∈ l, (∃ b i, e = Event.load b i) ∨ (∃ i, e = Event.compare i) ∨
        (∃ f args, e = Event.fprintf f args) ∨ e = Event.fflush) := by
  have ha' : NUM_VALUES ≤ a.size := ha
  have ho' : NUM_VALUES ≤ o.size := ho
  rcases validateLoop_from_zero input output a o s fuel hfuel
    ha' ho' hin hout with ⟨j, hj, _, _, hrun⟩ | ⟨_, hrun⟩
  · have hj' : j < 1024 := hj
    refine ⟨0, _, _, hrun, Or.inl rfl, rfl, hin, hout, rfl, ?_, ?_, ?_⟩
    · intro b i hmem
      rcases mem_fail input output _ j _ _ hmem with ⟨l', hl', h | h | h⟩ | ⟨f, args, h⟩ | h
      · cases h
        exact ⟨by omega, by omega, by omega, Or.inr rfl⟩
      · cases h
        exact ⟨by omega, by omega, by omega, Or.inl rfl⟩
      · cases h
      · cases h
      · cases h
    · intro b i hmem
      rcases mem_fail input output _ j _ _ hmem with ⟨l', hl', h | h | h⟩ | ⟨f, args, h⟩ | h
        <;> cases h
    · intro e hmem
      rcases mem_fail input output _ j _ _ hmem with ⟨l', hl', h | h | h⟩ | h | h
      · exact Or.inl ⟨_, _, h⟩
      · exact Or.inl ⟨_, _, h⟩
      · exact Or.inr (Or.inl ⟨_, h⟩)
      · exact Or.inr (Or.inr (Or.inl h))
      · exact Or.inr (Or.inr (Or.inr h))
  · refine ⟨1, _, _, hrun, Or.inr rfl, rfl, hin, hout, rfl, ?_, ?_, ?_⟩
    · intro b i hmem
      obtain ⟨l', hl', h | h | h⟩ := mem_pass input output _ hmem
      · have hlt : l' < 1024 := hl'
        cases h
        exact ⟨by omega, by omega, by omega, Or.inr rfl⟩
      · have hlt : l' < 1024 := hl'
        cases h
        exact ⟨by omega, by omega, by omega, Or.inl rfl⟩
      · cases h
    · intro b i hmem
      obtain ⟨l', hl', h | h | h⟩ := mem_pass input output _ hmem <;> cases h
    · intro e hmem
      obtain ⟨l', hl', h | h | h⟩ := mem_pass input output _ hmem
      · exact Or.inl ⟨_, _, h⟩
      · exact Or.inl ⟨_, _, h⟩
      · exact Or.inr (Or.inl ⟨_, h⟩)

/-! ## The run of main -/

theorem main_queue_eq (env : Env) (s : State) :
    main_queue env s = (queueOf env, { heap := s.heap, trace := s.trace ++ queueEvents env }) := by
  unfold main_queue gcl_create_dispatch_queue queueOf queueEvents
  by_cases h : env.gpu_queue = 0 <;> simp [h, emit, fprintf, queueOf]

theorem size_fillArray (k : Nat) : ∀ (a : Array cl_float) (i : Nat),
    (fillArray a i k).size = a.size := by
  induction k with
  | zero => intro a i; rfl
  | succ k ih =>
    intro a i
    rw [fillArray, ih]
    simp

theorem getD_fillArray (k : Nat) : ∀ (a : Array cl_float) (i j : Nat), j < a.size →
    (fillArray a i k).getD j cl_float.nan =
      if i ≤ j ∧ j < i + k then cl_float.ofInt (j : Int) else a.getD j cl_float.nan := by
  induction k with
  | zero =>
    intro a i j _
    rw [fillArray, if_neg (by omega)]
  | succ k ih =>
    intro a i j hj
    rw [fillArray, ih _ _ _ (by simpa using hj)]
    by_cases hij : i = j
    · subst hij
      rw [if_neg (by omega), if_pos (by omega)]
      simp [Array.getD, Array.setD, hj]
    · have hne : (a.setD i (cl_float.ofInt (i : Int))).getD j cl_float.nan
          = a.getD j cl_float.nan := by
        by_cases hi : i < a.size
        · simp [Array.getD, Array.setD, hi, hj, Array.getElem_set, hij]
        · simp [Array.getD, Array.setD, hi, hj]
      rw [hne]
      by_cases hc : i + 1 ≤ j ∧ j < i + 1 + k
      · rw [if_pos hc, if_pos (by omega)]
      · rw [if_neg hc, if_neg (by omega)]

theorem Heap.set_set (h : Heap) (b : Buf) (v w : Option (Array cl_float)) :
    (h.set b v).set b w = h.set b w := by
  cases b <;> rfl

theorem Heap.get_set (h : Heap) (b : Buf) (v : Option (Array cl_float)) :
    (h.set b v).get b = v := by
  cases b <;> rfl

/-- The loop of lines 84-86 from counter `i` with `k` elements to go. -/
theorem main_fill_spec (k : Nat) : ∀ (i fuel : Nat) (s : State) (a : Array cl_float),
    i + k = NUM_VALUES → k < fuel → s.heap.get Buf.test_in = some a → NUM_VALUES ≤ a.size →
    main_fill fuel i s =
      .ok { heap := s.heap.set Buf.test_in (some (fillArray a i k)),
            trace := s.trace ++ fillTrace i k } := by
  induction k with
  | zero =>
    intro i fuel s a hik hfuel hin ha
    obtain ⟨fuel, rfl⟩ : ∃ f, fuel = f + 1 := ⟨fuel - 1, by omega⟩
    rw [main_fill, if_neg (by omega)]
    cases s with
    | mk heap trace =>
      simp only [fillArray, fillTrace, List.append_nil]
      congr 2
      cases heap
      simp only [Heap.get] at hin
      simp [Heap.set, hin]
  | succ k ih =>
    intro i fuel s a hik hfuel hin ha
    obtain ⟨fuel, rfl⟩ : ∃ f, fuel = f + 1 := ⟨fuel - 1, by omega⟩
    have hi : i < a.size := by omega
    have hstore : store Buf.test_in i (cl_float.ofInt (i : Int)) s =
        .ok { heap := s.heap.set Buf.test_in
                (some (a.set ⟨i, hi⟩ (cl_float.ofInt (i : Int)))),
              trace := s.trace ++ [Event.store Buf.test_in i] } := by
      simp [store, hin, hi]
    have hnext := ih (i + 1) fuel
      { heap := s.heap.set Buf.test_in (some (a.set ⟨i, hi⟩ (cl_float.ofInt (i : Int)))),
        trace := s.trace ++ [Event.store Buf.test_in i] }
      (a.set ⟨i, hi⟩ (cl_float.ofInt (i : Int))) (by omega) (by omega)
      (Heap.get_set s.heap Buf.test_in _) (by simpa using ha)
    rw [main_fill, if_pos (by omega), hstore]
    simp only []
    rw [hnext]
    simp [Heap.set_set, fillArray, fillTrace, Array.setD, hi]

theorem gcl_malloc_host (a : Array cl_float) (env : Env) (b p : Buf) (count : Nat) (s : State)
    (hp : s.heap.get p = some a) (hc : count ≤ a.size) :
    gcl_malloc env b count (some p) s =
      .ok { heap := s.heap.set b
              (some (Array.ofFn fun (k : Fin count) => a.getD k.val cl_float.nan)),
            trace := s.trace ++ [Event.gcl_malloc b count (some p)] } := by
  simp [gcl_malloc, hp, hc]

theorem square_kernel_eq (a o : Array cl_float) (env : Env) (range : cl_ndrange)
    (input output : Buf) (s : State) (hin : s.heap.get input = some a)
    (hout : s.heap.get output = some o) :
    square_kernel env range input output s =
      .ok { heap := s.heap.set output
              (some (Array.ofFn fun (k : Fin o.size) => env.square_kernel range a o k)),
            trace := s.trace ++ [Event.square_kernel range input output] } := by
  simp [square_kernel, hin, hout]

theorem gcl_memcpy_eq (d a : Array cl_float) (dst src : Buf) (count : Nat) (s : State)
    (hdst : s.heap.get dst = some d) (hsrc : s.heap.get src = some a)
    (hd : count ≤ d.size) (ha : count ≤ a.size) :
    gcl_memcpy dst src count s =
      .ok { heap := s.heap.set dst
              (some (Array.ofFn fun (k : Fin d.size) =>
                if k.val < count then a.getD k.val cl_float.nan
                else d.getD k.val cl_float.nan)),
            trace := s.trace ++ [Event.gcl_memcpy dst src count] } := by
  simp [gcl_memcpy, hdst, hsrc, hd, ha]

theorem size_hostInput (env : Env) : (hostInput env).size = NUM_VALUES := by
  rw [hostInput, size_fillArray, Array.size_ofFn]

theorem size_deviceInput (env : Env) : (deviceInput env).size = NUM_VALUES := by
  rw [deviceInput, Array.size_ofFn]

theorem size_deviceOutputInit (env : Env) : (deviceOutputInit env).size = NUM_VALUES := by
  rw [deviceOutputInit, Array.size_ofFn]

theorem size_deviceOutput (env : Env) : (deviceOutput env).size = NUM_VALUES := by
  rw [deviceOutput, Array.size_ofFn, size_deviceOutputInit]

theorem size_hostOutputInit (env : Env) : (hostOutputInit env).size = NUM_VALUES := by
  rw [hostOutputInit, Array.size_ofFn]

theorem size_hostOutput (env : Env) : (hostOutput env).size = NUM_VALUES := by
  rw [hostOutput, Array.size_ofFn, size_hostOutputInit]

theorem Heap.get_set_of_ne (h : Heap) (b c : Buf) (v : Option (Array cl_float))
    (hne : b ≠ c) : (h.set b v).get c = h.get c := by
  cases b <;> cases c <;> first | rfl | exact absurd rfl hne

theorem andThen_ok {α β : Type} (a : α) (k : α → Except Fault β) :
    andThen (.ok a) k = k a := rfl

/-- Lines 110-156 of `main` when the device blocks and `test_out` are allocated. -/
theorem main_block_eq (env : Env) (s : State) (mi mo tout : Array cl_float)
    (hmi : s.heap.get Buf.mem_in = some mi) (hmo : s.heap.get Buf.mem_out = some mo)
    (hto : s.heap.get Buf.test_out = some tout)
    (hsize : NUM_VALUES ≤ tout.size) (hmosize : NUM_VALUES ≤ mo.size) :
    main_block env s =
      .ok { heap := (s.heap.set Buf.mem_out
              (some (Array.ofFn fun (k : Fin mo.size) =>
                env.square_kernel (mainRange env) mi mo k))).set Buf.test_out
              (some (Array.ofFn fun (k : Fin tout.size) =>
                if k.val < NUM_VALUES then
                  (Array.ofFn fun (k : Fin mo.size) =>
                    env.square_kernel (mainRange env) mi mo k).getD k.val cl_float.nan
                else tout.getD k.val cl_float.nan)),
            trace := s.trace ++ [Event.gcl_get_kernel_block_workgroup_info,
              Event.square_kernel (mainRange env) Buf.mem_in Buf.mem_out,
              Event.gcl_memcpy Buf.test_out Buf.mem_out NUM_VALUES] } := by
  have hk := square_kernel_eq mi mo env (mainRange env) Buf.mem_in Buf.mem_out
    (emit Event.gcl_get_kernel_block_workgroup_info s) hmi hmo
  have hcp := gcl_memcpy_eq tout
    (Array.ofFn fun (k : Fin mo.size) => env.square_kernel (mainRange env) mi mo k)
    Buf.test_out Buf.mem_out NUM_VALUES
    { heap := (emit Event.gcl_get_kernel_block_workgroup_info s).heap.set Buf.mem_out
        (some (Array.ofFn fun (k : Fin mo.size) => env.square_kernel (mainRange env) mi mo k)),
      trace := (emit Event.gcl_get_kernel_block_workgroup_info s).trace ++
        [Event.square_kernel (mainRange env) Buf.mem_in Buf.mem_out] }
    (by
      show ((emit Event.gcl_get_kernel_block_workgroup_info s).heap.set Buf.mem_out _).get
        Buf.test_out = _
      rw [Heap.get_set_of_ne _ _ _ _ (by decide)]
      exact hto)
    (by
      show ((emit Event.gcl_get_kernel_block_workgroup_info s).heap.set Buf.mem_out _).get
        Buf.mem_out = _
      exact Heap.get_set _ _ _)
    hsize (by rw [Array.size_ofFn]; exact hmosize)
  rw [main_block]
  show andThen (square_kernel env (mainRange env) Buf.mem_in Buf.mem_out
    (emit Event.gcl_get_kernel_block_workgroup_info s)) _ = _
  rw [hk, andThen_ok, hcp]
  simp [emit, List.append_assoc]

/-- Lines 57-156 of `main` run without a fault and end in `setupState env`, with the queue
`queueOf env`. -/
theorem main_setup_eq (env : Env) (fuel : Nat) (hfuel : NUM_VALUES < fuel) :
    main_setup env fuel = .ok (queueOf env, setupState env) := by
  have hU : NUM_VALUES ≤
      (Array.ofFn fun (k : Fin NUM_VALUES) => env.uninit Buf.test_in k).size :=
    Nat.le_of_eq (Array.size_ofFn _).symm
  have hA : NUM_VALUES ≤ (hostInput env).size := Nat.le_of_eq (size_hostInput env).symm
  have hTO : NUM_VALUES ≤ (hostOutputInit env).size :=
    Nat.le_of_eq (size_hostOutputInit env).symm
  have hMO : NUM_VALUES ≤ (deviceOutputInit env).size :=
    Nat.le_of_eq (size_deviceOutputInit env).symm
  rw [main_setup, main_queue_eq]
  simp only []
  rw [main_fill_spec NUM_VALUES 0 fuel _ _ (Nat.zero_add _) hfuel ?_ hU, andThen_ok]
  on_goal 2 => rfl
  rw [gcl_malloc_host (hostInput env) env _ _ _ _ ?_ hA, andThen_ok]
  on_goal 2 => rfl
  rw [show ∀ s, gcl_malloc env Buf.mem_out NUM_VALUES none s =
    .ok { heap := s.heap.set Buf.mem_out (some (deviceOutputInit env)),
          trace := s.trace ++ [Event.gcl_malloc Buf.mem_out NUM_VALUES none] }
    from fun s => rfl, andThen_ok]
  rw [main_block_eq env _ (deviceInput env) (deviceOutputInit env) (hostOutputInit env)
    ?_ ?_ ?_ hTO hMO, andThen_ok]
  on_goal 2 => rfl
  on_goal 2 => rfl
  on_goal 2 => rfl
  simp only [emit, malloc, Heap.set, State.init, setupState, setupTrace, List.nil_append,
    List.append_assoc, List.cons_append, List.singleton_append]
  rfl

theorem getD_ofFn (n : Nat) (f : Fin n → cl_float) (j : Nat) (hj : j < n) :
    (Array.ofFn f).getD j cl_float.nan = f ⟨j, hj⟩ := by
  simp [Array.getD, hj]

theorem getD_hostInput (env : Env) (j : Nat) (hj : j < NUM_VALUES) :
    (hostInput env).getD j cl_float.nan = cl_float.ofInt (j : Int) := by
  rw [hostInput, getD_fillArray NUM_VALUES _ 0 j (by rw [Array.size_ofFn]; exact hj),
    if_pos (by omega)]

theorem getD_deviceInput (env : Env) (j : Nat) (hj : j < NUM_VALUES) :
    (deviceInput env).getD j cl_float.nan = cl_float.ofInt (j : Int) := by
  rw [deviceInput, getD_ofFn NUM_VALUES _ j hj]
  exact getD_hostInput env j hj

theorem getD_deviceOutput (env : Env) (j : Nat) (hj : j < NUM_VALUES) :
    (deviceOutput env).getD j cl_float.nan =
      env.square_kernel (mainRange env) (deviceInput env) (deviceOutputInit env) j := by
  rw [deviceOutput, getD_ofFn _ _ j (by rw [size_deviceOutputInit]; exact hj)]

theorem getD_hostOutput (env : Env) (j : Nat) (hj : j < NUM_VALUES) :
    (hostOutput env).getD j cl_float.nan =
      env.square_kernel (mainRange env) (deviceInput env) (deviceOutputInit env) j := by
  rw [hostOutput, getD_ofFn _ _ j (by rw [size_hostOutputInit]; exact hj)]
  simp only [hj, if_true]
  exact getD_deviceOutput env j hj

/-- Lines 159-162 of `main` on two blocks of at least `NUM_VALUES` elements: the heap is
untouched, and the events are those of a failing run of `validate` up to its first failing
index, or those of a passing run followed by the success message. -/
theorem main_check_spec (input output : Buf) (a o : Array cl_float) (s : State)
    (fuel : Nat) (hfuel : NUM_VALUES < fuel)
    (ha : NUM_VALUES ≤ a.size) (ho : NUM_VALUES ≤ o.size)
    (hin : s.heap.get input = some a) (hout : s.heap.get output = some o) :
    (∃ j, j < NUM_VALUES ∧ (∀ l, l < j → differs a o l = false) ∧ differs a o j = true ∧
        validate input output fuel s =
          .ok (0, { heap := s.heap, trace := s.trace ++ failureTrace input output a o j }) ∧
        main_check input output fuel s =
          .ok { heap := s.heap, trace := s.trace ++ failureTrace input output a o j })
    ∨ ((∀ l, l < NUM_VALUES → differs a o l = false) ∧
        validate input output fuel s =
          .ok (1, { heap := s.heap,
                    trace := s.trace ++ passTrace input output 0 NUM_VALUES }) ∧
        main_check input output fuel s =
          .ok { heap := s.heap, trace := s.trace ++ successTrace input output }) := by
  rcases validateLoop_from_zero input output a o s fuel hfuel
    ha ho hin hout with ⟨j, hj, hbefore, hat, hrun⟩ | ⟨hall, hrun⟩
  · left
    have hval : validate input output fuel s =
        .ok (0, { heap := s.heap, trace := s.trace ++ failureTrace input output a o j }) :=
      hrun
    refine ⟨j, hj, hbefore, hat, hval, ?_⟩
    rw [main_check, hval, andThen_ok]
    rfl
  · right
    have hval : validate input output fuel s =
        .ok (1, { heap := s.heap,
                  trace := s.trace ++ passTrace input output 0 NUM_VALUES }) := hrun
    refine ⟨hall, hval, ?_⟩
    rw [main_check, hval, andThen_ok]
    simp [fprintf, emit, successTrace]

theorem release_eq (e : Event) (b : Buf) (s : State) (a : Array cl_float)
    (hb : s.heap.get b = some a) :
    release e b s = .ok { heap := s.heap.set b none, trace := s.trace ++ [e] } := by
  simp [release, hb]

/-- Lines 164-173 of `main` when the four blocks are allocated: no fault, nothing stays
allocated, and the events are the four frees and the release, in this order. -/
theorem main_cleanup_eq (queue : Nat) (a o mi mo : Array cl_float) (t : List Event) :
    main_cleanup queue
      { heap := { test_in := some a, test_out := some o, mem_in := some mi, mem_out := some mo },
        trace := t } =
      .ok { heap := Heap.empty, trace := t ++ cleanupTrace queue } := by
  simp [main_cleanup, andThen, release, Heap.get, Heap.set, emit, cleanupTrace, Heap.empty]

/-- The run of `main`: no fault, exit status 0, nothing left allocated; the events are
those of the set-up, of the check (failing at a first index `j`, or passing) and of the
clean-up. -/
theorem main_spec (env : Env) (fuel : Nat) (hfuel : NUM_VALUES < fuel) :
    (∃ j, j < NUM_VALUES ∧
        (∀ l, l < j → differs (hostInput env) (hostOutput env) l = false) ∧
        differs (hostInput env) (hostOutput env) j = true ∧
        validate Buf.test_in Buf.test_out fuel (setupState env) =
          .ok (0, { heap := (setupState env).heap,
                    trace := (setupState env).trace ++
                      failureTrace Buf.test_in Buf.test_out (hostInput env) (hostOutput env) j }) ∧
        main env fuel =
          .ok (0, { heap := Heap.empty,
                    trace := setupTrace env ++
                      failureTrace Buf.test_in Buf.test_out (hostInput env) (hostOutput env) j ++
                      cleanupTrace (queueOf env) }))
    ∨ ((∀ l, l < NUM_VALUES → differs (hostInput env) (hostOutput env) l = false) ∧
        validate Buf.test_in Buf.test_out fuel (setupState env) =
          .ok (1, { heap := (setupState env).heap,
                    trace := (setupState env).trace ++
                      passTrace Buf.test_in Buf.test_out 0 NUM_VALUES }) ∧
        main env fuel =
          .ok (0, { heap := Heap.empty,
                    trace := setupTrace env ++ successTrace Buf.test_in Buf.test_out ++
                      cleanupTrace (queueOf env) })) := by
  have hheap : (setupState env).heap =
      { test_in := some (hostInput env), test_out := some (hostOutput env),
        mem_in := some (deviceInput env), mem_out := some (deviceOutput env) } := rfl
  have htrace : (setupState env).trace = setupTrace env := rfl
  rcases main_check_spec Buf.test_in Buf.test_out (hostInput env) (hostOutput env)
    (setupState env) fuel hfuel (Nat.le_of_eq (size_hostInput env).symm)
    (Nat.le_of_eq (size_hostOutput env).symm) rfl rfl
    with ⟨j, hj, hbefore, hat, hval, hcheck⟩ | ⟨hall, hval, hcheck⟩
  · left
    refine ⟨j, hj, hbefore, hat, hval, ?_⟩
    rw [main, main_setup_eq env fuel hfuel, andThen_ok]
    simp only []
    rw [hcheck, andThen_ok, hheap, htrace, main_cleanup_eq, andThen_ok]
  · right
    refine ⟨hall, hval, ?_⟩
    rw [main, main_setup_eq env fuel hfuel, andThen_ok]
    simp only []
    rw [hcheck, andThen_ok, hheap, htrace, main_cleanup_eq, andThen_ok]

/-! ## The events of main -/

theorem forall_mem_fillTrace (P : Event → Prop) (h : ∀ i, P (Event.store Buf.test_in i))
    (k : Nat) : ∀ i, ∀ e ∈ fillTrace i k, P e := by
  induction k with
  | zero => intro i e he; simp [fillTrace] at he
  | succ k ih =>
    intro i e he
    rw [fillTrace, List.mem_cons] at he
    rcases he with he | he
    · rw [he]
      exact h i
    · exact ih (i + 1) e he

theorem forall_mem_passTrace (input output : Buf) (P : Event → Prop)
    (hload : ∀ b i, P (Event.load b i)) (hcmp : ∀ i, P (Event.compare i))
    (i k : Nat) : ∀ e ∈ passTrace input output i k, P e := by
  intro e he
  obtain ⟨l, _, _, hl⟩ := mem_passTrace input output e k i he
  rcases mem_passEvents input output e l hl with h | h | h
  · rw [h]; exact hload _ _
  · rw [h]; exact hload _ _
  · rw [h]; exact hcmp _

theorem forall_mem_failureTrace (input output : Buf) (a o : Array cl_float) (j : Nat)
    (P : Event → Prop)
    (hload : ∀ b i, P (Event.load b i)) (hcmp : ∀ i, P (Event.compare i))
    (hprint : ∀ f args, P (Event.fprintf f args)) (hflush : P Event.fflush) :
    ∀ e ∈ failureTrace input output a o j, P e := by
  intro e he
  rcases mem_fail input output e j _ _ he with ⟨l, _, h | h | h⟩ | ⟨f, args, h⟩ | h
  · rw [h]; exact hload _ _
  · rw [h]; exact hload _ _
  · rw [h]; exact hcmp _
  · rw [h]; exact hprint _ _
  · rw [h]; exact hflush

theorem forall_mem_successTrace (input output : Buf) (P : Event → Prop)
    (hload : ∀ b i, P (Event.load b i)) (hcmp : ∀ i, P (Event.compare i))
    (hprint : ∀ f args, P (Event.fprintf f args)) :
    ∀ e ∈ successTrace input output, P e := by
  intro e he
  rw [successTrace, List.mem_append, List.mem_singleton] at he
  rcases he with he | he
  · exact forall_mem_passTrace input output P hload hcmp 0 NUM_VALUES e he
  · rw [he]; exact hprint _ _

theorem filter_eq_nil_of_forall (p : Event → Bool) (l : List Event)
    (h : ∀ e ∈ l, p e = false) : l.filter p = [] := by
  rw [List.filter_eq_nil_iff]
  intro e he
  rw [h e he]
  decide

/-- The queue calls of the set-up: the GPU request, the CPU request when the GPU request
returned `NULL`, and the dispatch. -/
theorem queueCalls_setupTrace (env : Env) :
    queueCalls (setupTrace env) =
      Event.gcl_create_dispatch_queue cl_device_type.CL_DEVICE_TYPE_GPU ::
        ((if env.gpu_queue = 0 then
            [Event.gcl_create_dispatch_queue cl_device_type.CL_DEVICE_TYPE_CPU]
          else []) ++ [Event.dispatch_sync (queueOf env)]) := by
  have hfill : (fillTrace 0 NUM_VALUES).filter (fun e => match e with
      | Event.gcl_create_dispatch_queue _ => true
      | Event.dispatch_sync _ => true
      | Event.dispatch_release _ => true
      | _ => false) = [] :=
    filter_eq_nil_of_forall _ _
      (forall_mem_fillTrace (fun e => (match e with
        | Event.gcl_create_dispatch_queue _ => true
        | Event.dispatch_sync _ => true
        | Event.dispatch_release _ => true
        | _ => false) = false) (fun _ => rfl) NUM_VALUES 0)
  unfold queueCalls setupTrace queueEvents
  by_cases h : env.gpu_queue = 0
  · simp [h, List.filter_append, List.filter_cons, hfill]
  · simp [h, List.filter_append, List.filter_cons, hfill]

theorem queueCalls_failureTrace (input output : Buf) (a o : Array cl_float) (j : Nat) :
    queueCalls (failureTrace input output a o j) = [] :=
  filter_eq_nil_of_forall _ _
    (forall_mem_failureTrace input output a o j (fun e => (match e with
        | Event.gcl_create_dispatch_queue _ => true
        | Event.dispatch_sync _ => true
        | Event.dispatch_release _ => true
        | _ => false) = false) (fun _ _ => rfl) (fun _ => rfl)
      (fun _ _ => rfl) rfl)

theorem queueCalls_successTrace (input output : Buf) :
    queueCalls (successTrace input output) = [] :=
  filter_eq_nil_of_forall _ _
    (forall_mem_successTrace input output (fun e => (match e with
        | Event.gcl_create_dispatch_queue _ => true
        | Event.dispatch_sync _ => true
        | Event.dispatch_release _ => true
        | _ => false) = false) (fun _ _ => rfl) (fun _ => rfl) (fun _ _ => rfl))

theorem queueCalls_append (l₁ l₂ : List Event) :
    queueCalls (l₁ ++ l₂) = queueCalls l₁ ++ queueCalls l₂ := by
  simp [queueCalls]

theorem queueCalls_cleanupTrace (queue : Nat) :
    queueCalls (cleanupTrace queue) = [Event.dispatch_release queue] := rfl

theorem forall_mem_queueEvents (env : Env) (P : Event → Prop)
    (hcreate : ∀ t, P (Event.gcl_create_dispatch_queue t))
    (hid : ∀ q, P (Event.gcl_get_device_id_with_dispatch_queue q))
    (hinfo : ∀ d, P (Event.clGetDeviceInfo d))
    (hprint : ∀ f args, P (Event.fprintf f args)) :
    ∀ e ∈ queueEvents env, P e := by
  intro e he
  rw [queueEvents] at he
  rcases List.mem_cons.1 he with he | he
  · rw [he]; exact hcreate _
  · rcases List.mem_append.1 he with he | he
    · split at he
      · rw [List.mem_singleton.1 he]; exact hcreate _
      · cases he
    · simp only [List.mem_cons, List.mem_singleton, List.not_mem_nil, or_false] at he
      rcases he with he | he | he
      · rw [he]; exact hid _
      · rw [he]; exact hinfo _
      · rw [he]; exact hprint _ _

theorem forall_mem_setupTrace (env : Env) (P : Event → Prop)
    (hqueue : ∀ e ∈ queueEvents env, P e)
    (hmalloc : ∀ b n, P (Event.malloc b n))
    (hstore : ∀ i, P (Event.store Buf.test_in i))
    (hgcl : ∀ b n h, P (Event.gcl_malloc b n h))
    (hsync : ∀ q, P (Event.dispatch_sync q))
    (hinfo : P Event.gcl_get_kernel_block_workgroup_info)
    (hkernel : ∀ r i o, P (Event.square_kernel r i o))
    (hcopy : ∀ d s n, P (Event.gcl_memcpy d s n)) :
    ∀ e ∈ setupTrace env, P e := by
  intro e he
  rw [setupTrace] at he
  rcases List.mem_append.1 he with he | he
  · rcases List.mem_append.1 he with he | he
    · exact hqueue e he
    · rcases List.mem_cons.1 he with he | he
      · rw [he]; exact hmalloc _ _
      · exact forall_mem_fillTrace P hstore NUM_VALUES 0 e he
  · simp only [List.mem_cons, List.mem_singleton, List.not_mem_nil, or_false] at he
    rcases he with he | he | he | he | he | he | he
    · rw [he]; exact hmalloc _ _
    · rw [he]; exact hgcl _ _ _
    · rw [he]; exact hgcl _ _ _
    · rw [he]; exact hsync _
    · rw [he]; exact hinfo
    · rw [he]; exact hkernel _ _ _
    · rw [he]; exact hcopy _ _ _

/-- No event of the set-up frees a block or releases a queue. -/
theorem setupTrace_no_cleanup (env : Env) (b : Buf) :
    ∀ e ∈ setupTrace env, e.frees b = false ∧ e.isRelease = false :=
  forall_mem_setupTrace env (fun e => e.frees b = false ∧ e.isRelease = false)
    (forall_mem_queueEvents env _ (fun _ => ⟨rfl, rfl⟩) (fun _ => ⟨rfl, rfl⟩)
      (fun _ => ⟨rfl, rfl⟩) (fun _ _ => ⟨rfl, rfl⟩))
    (fun _ _ => ⟨rfl, rfl⟩) (fun _ => ⟨rfl, rfl⟩) (fun _ _ _ => ⟨rfl, rfl⟩)
    (fun _ => ⟨rfl, rfl⟩) ⟨rfl, rfl⟩ (fun _ _ _ => ⟨rfl, rfl⟩) (fun _ _ _ => ⟨rfl, rfl⟩)

/-! ## The values main works on -/

theorem sq_le_of_lt_1024 (i : Nat) (hi : i < 1024) : i * i ≤ 1046529 := by
  have h : i ≤ 1023 := by omega
  exact Nat.mul_le_mul h h

theorem mul_ofInt_self (i : Nat) (hi : i < 1024) :
    cl_float.mul (cl_float.ofInt (i : Int)) (cl_float.ofInt (i : Int)) =
      cl_float.ofInt ((i * i : Nat) : Int) := by
  have h := sq_le_of_lt_1024 i hi
  exact cl_float.mul_ofInt_natCast i i (by norm_num; omega) (by norm_num; omega)
    (by norm_num; omega)

/-- The conversion of a natural number below `2^24` fits the format. -/
theorem representable_ofInt_natCast (n : Nat) (h : n < 2 ^ 24) :
    cl_float.Representable (cl_float.ofInt (n : Int)) := by
  by_cases h0 : n = 0
  · subst h0
    have hz : cl_float.ofInt ((0 : Nat) : Int) = cl_float.finite false 0 (-149) := by decide
    rw [hz]
    exact ⟨by norm_num, by norm_num, by norm_num⟩
  · rw [cl_float.ofInt_natCast n h0 h]
    have hb : bitLength n ≤ 24 := (bitLength_le_iff n 24).2 h
    have h1 := lt_two_pow_bitLength n
    have h2 : 2 ^ bitLength n * 2 ^ (24 - bitLength n) = 2 ^ 24 := by
      rw [← pow_add]
      congr 1
      omega
    have h3 : n * 2 ^ (24 - bitLength n) < 2 ^ bitLength n * 2 ^ (24 - bitLength n) :=
      Nat.mul_lt_mul_of_pos_right h1 (by positivity)
    refine ⟨by omega, by omega, by omega⟩

/-- A finite datum does not differ from itself. -/
theorem ne_self_of_toRat (x : cl_float) (v : ℚ) (hx : cl_float.toRat x = some v) :
    cl_float.ne x x = false := by
  have h := cl_float.ne_iff_toRat_ne x x v hx
  cases hne : cl_float.ne x x with
  | false => rfl
  | true => exact absurd hx (h.1 hne)

theorem getD_hostOutput_of_squares (env : Env) (hk : KernelSquares env) (j : Nat)
    (hj : j < NUM_VALUES) :
    (hostOutput env).getD j cl_float.nan = cl_float.ofInt ((j * j : Nat) : Int) := by
  have hsize : j < (deviceInput env).size := by rw [size_deviceInput]; exact hj
  have hrange : mainRange env = dispatchedRange env.wgs := rfl
  rw [getD_hostOutput env j hj, hrange,
    hk (deviceInput env) (deviceOutputInit env) j hsize hj,
    ← getD_eq _ j hsize, getD_deviceInput env j hj]
  exact mul_ofInt_self j hj

theorem differs_host_of_squares (env : Env) (hk : KernelSquares env) (j : Nat)
    (hj : j < NUM_VALUES) : differs (hostInput env) (hostOutput env) j = false := by
  have hsq := sq_le_of_lt_1024 j hj
  rw [differs, getD_hostOutput_of_squares env hk j hj, getD_hostInput env j hj,
    mul_ofInt_self j hj]
  exact ne_self_of_toRat _ _ (cl_float.toRat_ofInt_natCast (j * j) (by norm_num; omega))

/-- With a squaring kernel `validate` returns 1 on the blocks `main` hands it. -/
theorem validate_setup_of_squares (env : Env) (hk : KernelSquares env) (fuel : Nat)
    (hfuel : NUM_VALUES < fuel) :
    validate Buf.test_in Buf.test_out fuel (setupState env) =
      .ok (1, { heap := (setupState env).heap,
                trace := (setupState env).trace ++
                  passTrace Buf.test_in Buf.test_out 0 NUM_VALUES }) := by
  rcases main_spec env fuel hfuel with ⟨j, hj, _, hat, _, _⟩ | ⟨_, hval, _⟩
  · rw [differs_host_of_squares env hk j hj] at hat
    cases hat
  · exact hval

theorem squareEnv_squares : KernelSquares squareEnv := by
  intro inp out k hk h
  show (if 0 ≤ k ∧ k < 0 + 1024 then
    cl_float.mul (inp.getD k cl_float.nan) (inp.getD k cl_float.nan)
    else out.getD k cl_float.nan) = _
  rw [if_pos ⟨Nat.zero_le _, by omega⟩, getD_eq inp k hk]

theorem exactRangeEnv_squares : KernelSquares exactRangeEnv := by
  intro inp out k hk h
  show (if dispatchedRange 64 = dispatchedRange 64 ∧ k < 1024 then
    cl_float.mul (inp.getD k cl_float.nan) (inp.getD k cl_float.nan)
    else cl_float.nan) = _
  rw [if_pos ⟨rfl, h⟩, getD_eq inp k hk]

/-- The one kernel call of the set-up: over `mainRange env`, from `mem_in` to `mem_out`. -/
theorem kernelCalls_setupTrace (env : Env) :
    kernelCalls (setupTrace env) =
      [Event.square_kernel (mainRange env) Buf.mem_in Buf.mem_out] := by
  have hfill : (fillTrace 0 NUM_VALUES).filter (fun e => match e with
      | Event.square_kernel _ _ _ => true
      | _ => false) = [] :=
    filter_eq_nil_of_forall _ _
      (forall_mem_fillTrace (fun e => (match e with
        | Event.square_kernel _ _ _ => true
        | _ => false) = false) (fun _ => rfl) NUM_VALUES 0)
  unfold kernelCalls setupTrace queueEvents
  by_cases h : env.gpu_queue = 0
  · simp [h, List.filter_append, List.filter_cons, hfill]
  · simp [h, List.filter_append, List.filter_cons, hfill]

/-! ## Claims about main -/

theorem getElem_of_getD (a : Array cl_float) (i : Nat) (h : i < a.size) (v : cl_float)
    (hv : a.getD i cl_float.nan = v) : a[i] = v := by
  rw [← getD_eq a i h]
  exact hv

/-- C2: `main` fills its input block with `test_in[i] = (cl_float)i`, the integer `i`, for
every `i` in `[0, 1024)`, and dispatches the kernel once, over the range of one dimension,
offset 0 and global size 1024; if on that range the kernel writes `in[k] * in[k]` to
`out[k]` for every index `k` of the range, then after the copy back `test_out[i]` is
`test_in[i] * test_in[i]`, the integer `i * i`, for every `i` in `[0, 1024)`, and
`validate(test_in, test_out)` returns 1. -/
theorem main_output_is_squares (env : Env) (hk : KernelSquares env) (fuel : Nat)
    (hfuel : NUM_VALUES < fuel) :
    ∃ (s s' : State) (a o : Array cl_float) (ha : a.size = 1024) (ho : o.size = 1024),
      main_setup env fuel = .ok (queueOf env, s) ∧
      kernelCalls s.trace =
        [Event.square_kernel (dispatchedRange env.wgs) Buf.mem_in Buf.mem_out] ∧
      s.heap.get Buf.test_in = some a ∧ s.heap.get Buf.test_out = some o ∧
      (∀ (i : Nat) (hi : i < 1024),
        a[i] = cl_float.ofInt (i : Int) ∧ cl_float.toRat a[i] = some (i : ℚ)) ∧
      (∀ (i : Nat) (hi : i < 1024),
        o[i] = cl_float.mul a[i] a[i] ∧ cl_float.toRat o[i] = some ((i * i : Nat) : ℚ)) ∧
      validate Buf.test_in Buf.test_out fuel s = .ok (1, s') := by
  have ha : (hostInput env).size = 1024 := size_hostInput env
  have ho : (hostOutput env).size = 1024 := size_hostOutput env
  refine ⟨setupState env, _, hostInput env, hostOutput env, ha, ho,
    main_setup_eq env fuel hfuel, kernelCalls_setupTrace env, rfl, rfl, ?_, ?_,
    validate_setup_of_squares env hk fuel hfuel⟩
  · intro i hi
    have hin := getElem_of_getD (hostInput env) i (by omega) _ (getD_hostInput env i hi)
    rw [hin]
    exact ⟨rfl, cl_float.toRat_ofInt_natCast i (by norm_num; omega)⟩
  · intro i hi
    have hsq := sq_le_of_lt_1024 i hi
    have hin := getElem_of_getD (hostInput env) i (by omega) _ (getD_hostInput env i hi)
    have hout := getElem_of_getD (hostOutput env) i (by omega) _
      (getD_hostOutput_of_squares env hk i hi)
    rw [hin, hout, mul_ofInt_self i hi]
    exact ⟨rfl, cl_float.toRat_ofInt_natCast (i * i) (by norm_num; omega)⟩

/-- C9: for every integer `i` in `[0, 1024)` both `i` and `i * i` are below `2^24` (at
most `1023 * 1023 = 1046529`); the value `test_in[i]` that `main` stores is the integer `i`
and the product `test_in[i] * test_in[i]` is the integer `i * i`, both without rounding
and both with a significand of at most 24 bits; and for any value `x` of an output element the test `x != test_in[i] * test_in[i]` of
`validate` holds exactly when `x` is not the integer `i * i`. -/
theorem test_in_squares_are_exact (env : Env) (fuel : Nat) (hfuel : NUM_VALUES < fuel)
    (i : Nat) (hi : i < 1024) :
    i < 2 ^ 24 ∧ i * i < 2 ^ 24 ∧ i * i ≤ 1023 * 1023 ∧ 1023 * 1023 = 1046529 ∧
    ∃ (s : State) (a : Array cl_float) (ha : a.size = 1024),
      main_setup env fuel = .ok (queueOf env, s) ∧ s.heap.get Buf.test_in = some a ∧
      a[i] = cl_float.ofInt (i : Int) ∧
      cl_float.toRat a[i] = some (i : ℚ) ∧
      cl_float.toRat (cl_float.mul a[i] a[i]) = some ((i * i : Nat) : ℚ) ∧
      cl_float.Representable a[i] ∧ cl_float.Representable (cl_float.mul a[i] a[i]) ∧
      ∀ x : cl_float,
        cl_float.ne x (cl_float.mul a[i] a[i]) = true ↔
          cl_float.toRat x ≠ some ((i * i : Nat) : ℚ) := by
  have hsq := sq_le_of_lt_1024 i hi
  have ha : (hostInput env).size = 1024 := size_hostInput env
  have hin := getElem_of_getD (hostInput env) i (by omega) _ (getD_hostInput env i hi)
  have hprod : cl_float.toRat (cl_float.mul (cl_float.ofInt (i : Int))
      (cl_float.ofInt (i : Int))) = some ((i * i : Nat) : ℚ) := by
    rw [mul_ofInt_self i hi]
    exact cl_float.toRat_ofInt_natCast (i * i) (by norm_num; omega)
  refine ⟨by norm_num; omega, by norm_num; omega, by omega, by norm_num,
    setupState env, hostInput env, ha, main_setup_eq env fuel hfuel, rfl, hin, ?_, ?_, ?_,
    ?_, ?_⟩
  · rw [hin]
    exact cl_float.toRat_ofInt_natCast i (by norm_num; omega)
  · rw [hin]
    exact hprod
  · rw [hin]
    exact representable_ofInt_natCast i (by norm_num; omega)
  · rw [hin, mul_ofInt_self i hi]
    exact representable_ofInt_natCast (i * i) (by norm_num; omega)
  · intro x
    rw [hin]
    exact cl_float.ne_iff_toRat_ne x _ _ hprod

/-- C3: `main` requests a CPU dispatch queue if and only if the GPU request returned
`NULL` (0); the queue it dispatches on, and releases, is the GPU queue when that is not
`NULL` and otherwise the result of the single CPU request, whatever that is: the queue
calls of the run are the GPU request, the CPU request in the `NULL` case only, one dispatch
and one release, and nothing else, also when both requests return `NULL`. -/
theorem main_queue_fallback (env : Env) (fuel : Nat) (hfuel : NUM_VALUES < fuel) :
    ∃ s : State, main env fuel = .ok (0, s) ∧
      queueCalls s.trace =
        Event.gcl_create_dispatch_queue cl_device_type.CL_DEVICE_TYPE_GPU ::
          ((if env.gpu_queue = 0 then
              [Event.gcl_create_dispatch_queue cl_device_type.CL_DEVICE_TYPE_CPU]
            else []) ++
           [Event.dispatch_sync (if env.gpu_queue = 0 then env.cpu_queue else env.gpu_queue),
            Event.dispatch_release
              (if env.gpu_queue = 0 then env.cpu_queue else env.gpu_queue)]) ∧
      (Event.gcl_create_dispatch_queue cl_device_type.CL_DEVICE_TYPE_CPU ∈ s.trace ↔
        env.gpu_queue = 0) ∧
      (env.gpu_queue = 0 → env.cpu_queue = 0 → Event.dispatch_sync 0 ∈ s.trace) := by
  have key : ∀ check : List Event, queueCalls check = [] →
      queueCalls (setupTrace env ++ check ++ cleanupTrace (queueOf env)) =
        Event.gcl_create_dispatch_queue cl_device_type.CL_DEVICE_TYPE_GPU ::
          ((if env.gpu_queue = 0 then
              [Event.gcl_create_dispatch_queue cl_device_type.CL_DEVICE_TYPE_CPU]
            else []) ++
           [Event.dispatch_sync (if env.gpu_queue = 0 then env.cpu_queue else env.gpu_queue),
            Event.dispatch_release
              (if env.gpu_queue = 0 then env.cpu_queue else env.gpu_queue)]) := by
    intro check hcheck
    rw [queueCalls_append, queueCalls_append, hcheck, queueCalls_setupTrace,
      queueCalls_cleanupTrace]
    simp [queueOf]
  have fin : ∀ s : State, main env fuel = .ok (0, s) →
      queueCalls s.trace =
        Event.gcl_create_dispatch_queue cl_device_type.CL_DEVICE_TYPE_GPU ::
          ((if env.gpu_queue = 0 then
              [Event.gcl_create_dispatch_queue cl_device_type.CL_DEVICE_TYPE_CPU]
            else []) ++
           [Event.dispatch_sync (if env.gpu_queue = 0 then env.cpu_queue else env.gpu_queue),
            Event.dispatch_release
              (if env.gpu_queue = 0 then env.cpu_queue else env.gpu_queue)]) →
      (Event.gcl_create_dispatch_queue cl_device_type.CL_DEVICE_TYPE_CPU ∈ s.trace ↔
        env.gpu_queue = 0) ∧
      (env.gpu_queue = 0 → env.cpu_queue = 0 → Event.dispatch_sync 0 ∈ s.trace) := by
    intro s _ hq
    have hmem : ∀ e, e ∈ queueCalls s.trace → e ∈ s.trace := fun e he =>
      (List.mem_filter.1 he).1
    have hcpu : Event.gcl_create_dispatch_queue cl_device_type.CL_DEVICE_TYPE_CPU ∈ s.trace ↔
        Event.gcl_create_dispatch_queue cl_device_type.CL_DEVICE_TYPE_CPU ∈
          queueCalls s.trace := by
      constructor
      · intro h
        exact List.mem_filter.2 ⟨h, rfl⟩
      · exact hmem _
    refine ⟨?_, ?_⟩
    · rw [hcpu, hq]
      by_cases h : env.gpu_queue = 0 <;> simp [h]
    · intro h1 h2
      apply hmem
      rw [hq]
      simp [h1, h2]
  rcases main_spec env fuel hfuel with ⟨j, _, _, _, _, hmain⟩ | ⟨_, _, hmain⟩
  · have hq := key _ (queueCalls_failureTrace Buf.test_in Buf.test_out (hostInput env)
      (hostOutput env) j)
    exact ⟨_, hmain, hq, fin _ hmain hq⟩
  · have hq := key _ (queueCalls_successTrace Buf.test_in Buf.test_out)
    exact ⟨_, hmain, hq, fin _ hmain hq⟩

theorem idleEnv_kernel (range : cl_ndrange) (inp out : Array cl_float) (k : Nat) :
    idleEnv.square_kernel range inp out k = out.getD k cl_float.nan := rfl

theorem ne_nan_left (y : cl_float) : cl_float.ne cl_float.nan y = true := by
  cases y <;> rfl

theorem differs_idle_zero : differs (hostInput idleEnv) (hostOutput idleEnv) 0 = true := by
  have h0 : 0 < NUM_VALUES := by decide
  have hout : (hostOutput idleEnv).getD 0 cl_float.nan = cl_float.nan := by
    rw [getD_hostOutput idleEnv 0 h0, idleEnv_kernel, deviceOutputInit,
      getD_ofFn NUM_VALUES _ 0 h0]
    rfl
  rw [differs, hout, ne_nan_left]

/-- C4: the exit status of `main` is 0 on every run, whatever the kernel left in the output
block and whatever `validate` returned; a run in which `validate` returns 0 (`idleEnv`) and
a run in which it returns 1 (`squareEnv`) both end with status 0. -/
theorem main_exit_status_constant (fuel : Nat) (hfuel : NUM_VALUES < fuel) :
    (∀ env : Env, ∃ (r : Int) (s₁ s₂ s₃ : State),
      main_setup env fuel = .ok (queueOf env, s₁) ∧
      validate Buf.test_in Buf.test_out fuel s₁ = .ok (r, s₂) ∧ (r = 0 ∨ r = 1) ∧
      main env fuel = .ok (0, s₃)) ∧
    (∃ (s₁ s₂ s₃ : State),
      main_setup idleEnv fuel = .ok (queueOf idleEnv, s₁) ∧
      validate Buf.test_in Buf.test_out fuel s₁ = .ok (0, s₂) ∧
      main idleEnv fuel = .ok (0, s₃)) ∧
    (∃ (s₁ s₂ s₃ : State),
      main_setup squareEnv fuel = .ok (queueOf squareEnv, s₁) ∧
      validate Buf.test_in Buf.test_out fuel s₁ = .ok (1, s₂) ∧
      main squareEnv fuel = .ok (0, s₃)) := by
  refine ⟨?_, ?_, ?_⟩
  · intro env
    rcases main_spec env fuel hfuel with ⟨j, _, _, _, hval, hmain⟩ | ⟨_, hval, hmain⟩
    · exact ⟨0, _, _, _, main_setup_eq env fuel hfuel, hval, Or.inl rfl, hmain⟩
    · exact ⟨1, _, _, _, main_setup_eq env fuel hfuel, hval, Or.inr rfl, hmain⟩
  · rcases main_spec idleEnv fuel hfuel with ⟨j, _, _, _, hval, hmain⟩ | ⟨hall, _, _⟩
    · exact ⟨_, _, _, main_setup_eq idleEnv fuel hfuel, hval, hmain⟩
    · have := hall 0 (by decide)
      rw [differs_idle_zero] at this
      cases this
  · rcases main_spec squareEnv fuel hfuel with ⟨j, hj, _, hat, _, _⟩ | ⟨_, hval, hmain⟩
    · rw [differs_host_of_squares squareEnv squareEnv_squares j hj] at hat
      cases hat
    · exact ⟨_, _, _, main_setup_eq squareEnv fuel hfuel, hval, hmain⟩

/-- C5: for every content of two blocks of 1024 elements, lines 159-162 of `main` print
exactly one outcome: the message "All values were properly squared." and nothing else when
`output[i] == input[i] * input[i]` for every `i` in `[0, 1024)`, and the error report (its
two `fprintf` calls) and nothing else when some element differs. -/
theorem main_check_prints_one_outcome (input output : Buf) (s : State)
    (a o : Array cl_float)
    (hin : s.heap.get input = some a) (hout : s.heap.get output = some o)
    (ha : a.size = 1024) (ho : o.size = 1024) (fuel : Nat) (hfuel : NUM_VALUES < fuel) :
    ∃ (s' : State) (l : List Event),
      main_check input output fuel s = .ok s' ∧ s'.trace = s.trace ++ l ∧
      (((∀ i (hi : i < 1024), cl_float.ne o[i] (cl_float.mul a[i] a[i]) = false) ∧
          prints l = [Event.fprintf "All values were properly squared.\n" []])
       ∨ ((∃ i, ∃ (hi : i < 1024), cl_float.ne o[i] (cl_float.mul a[i] a[i]) = true) ∧
          ∃ (i : Nat) (saw expected : cl_float), prints l =
            [Event.fprintf "Error: Element %d did not match expected output.\n" [Arg.int i],
             Event.fprintf "       Saw %1.4f, expected %1.4f\n"
               [Arg.float saw, Arg.float expected]])) := by
  have ha' : NUM_VALUES ≤ a.size := by simp [NUM_VALUES, ha]
  have ho' : NUM_VALUES ≤ o.size := by simp [NUM_VALUES, ho]
  rcases main_check_spec input output a o s fuel hfuel ha' ho' hin hout
    with ⟨j, hj, _, hat, _, hcheck⟩ | ⟨hall, _, hcheck⟩
  · have hj' : j < 1024 := hj
    refine ⟨_, failureTrace input output a o j, hcheck, rfl,
      Or.inr ⟨⟨j, hj', ?_⟩, j, _, _, prints_fail _ _ _ _ _⟩⟩
    rw [← differs_eq a o j (by omega) (by omega)]
    exact hat
  · refine ⟨_, successTrace input output, hcheck, rfl, Or.inl ⟨?_, ?_⟩⟩
    · intro i hi
      rw [← differs_eq a o i (by omega) (by omega)]
      exact hall i hi
    · rw [successTrace, prints_append, prints_passTrace]
      rfl

/-- After a body that frees nothing and allocates each block, the clean-up frees each
block exactly once, with no later use, and ends with the only release. -/
theorem cleanup_frees_once (body : List Event) (queue : Nat)
    (hbody : ∀ b, ∀ x ∈ body, x.frees b = false ∧ x.isRelease = false)
    (halloc : ∀ b, ∃ x ∈ body, x.allocates b = true) :
    (∀ b : Buf, ∃ (pre post : List Event) (e : Event),
      body ++ cleanupTrace queue = pre ++ e :: post ∧ e.frees b = true ∧
      (∃ x ∈ pre, x.allocates b = true) ∧
      (∀ x ∈ pre, x.frees b = false) ∧
      (∀ x ∈ post, x.frees b = false ∧ x.uses b = false ∧ x.allocates b = false)) ∧
    (∃ pre : List Event, body ++ cleanupTrace queue = pre ++ [Event.dispatch_release queue] ∧
      ∀ x ∈ pre, x.isRelease = false) := by
  constructor
  · intro b
    obtain ⟨x, hx, hxa⟩ := halloc b
    cases b
    · refine ⟨body ++ [Event.gcl_free Buf.mem_in, Event.gcl_free Buf.mem_out],
        [Event.free Buf.test_out, Event.dispatch_release queue], Event.free Buf.test_in,
        by simp [cleanupTrace], rfl, ⟨x, List.mem_append_left _ hx, hxa⟩, ?_, ?_⟩
      · intro y hy
        rcases List.mem_append.1 hy with hy | hy
        · exact (hbody _ y hy).1
        · simp only [List.mem_cons, List.mem_singleton] at hy
          rcases hy with hy | hy | hy
          · rw [hy]; rfl
          · rw [hy]; rfl
          · cases hy
      · intro y hy
        simp only [List.mem_cons, List.mem_singleton] at hy
        rcases hy with hy | hy | hy
        · rw [hy]; exact ⟨rfl, rfl, rfl⟩
        · rw [hy]; exact ⟨rfl, rfl, rfl⟩
        · cases hy
    · refine ⟨body ++ [Event.gcl_free Buf.mem_in, Event.gcl_free Buf.mem_out,
          Event.free Buf.test_in],
        [Event.dispatch_release queue], Event.free Buf.test_out,
        by simp [cleanupTrace], rfl, ⟨x, List.mem_append_left _ hx, hxa⟩, ?_, ?_⟩
      · intro y hy
        rcases List.mem_append.1 hy with hy | hy
        · exact (hbody _ y hy).1
        · simp only [List.mem_cons, List.mem_singleton] at hy
          rcases hy with hy | hy | hy | hy
          · rw [hy]; rfl
          · rw [hy]; rfl
          · rw [hy]; rfl
          · cases hy
      · intro y hy
        simp only [List.mem_cons, List.mem_singleton] at hy
        rcases hy with hy | hy
        · rw [hy]; exact ⟨rfl, rfl, rfl⟩
        · cases hy
    · refine ⟨body,
        [Event.gcl_free Buf.mem_out, Event.free Buf.test_in, Event.free Buf.test_out,
          Event.dispatch_release queue], Event.gcl_free Buf.mem_in,
        by simp [cleanupTrace], rfl, ⟨x, hx, hxa⟩, ?_, ?_⟩
      · intro y hy
        exact (hbody _ y hy).1
      · intro y hy
        simp only [List.mem_cons, List.mem_singleton] at hy
        rcases hy with hy | hy | hy | hy | hy
        · rw [hy]; exact ⟨rfl, rfl, rfl⟩
        · rw [hy]; exact ⟨rfl, rfl, rfl⟩
        · rw [hy]; exact ⟨rfl, rfl, rfl⟩
        · rw [hy]; exact ⟨rfl, rfl, rfl⟩
        · cases hy
    · refine ⟨body ++ [Event.gcl_free Buf.mem_in],
        [Event.free Buf.test_in, Event.free Buf.test_out, Event.dispatch_release queue],
        Event.gcl_free Buf.mem_out,
        by simp [cleanupTrace], rfl, ⟨x, List.mem_append_left _ hx, hxa⟩, ?_, ?_⟩
      · intro y hy
        rcases List.mem_append.1 hy with hy | hy
        · exact (hbody _ y hy).1
        · simp only [List.mem_cons, List.mem_singleton] at hy
          rcases hy with hy | hy
          · rw [hy]; rfl
          · cases hy
      · intro y hy
        simp only [List.mem_cons, List.mem_singleton] at hy
        rcases hy with hy | hy | hy | hy
        · rw [hy]; exact ⟨rfl, rfl, rfl⟩
        · rw [hy]; exact ⟨rfl, rfl, rfl⟩
        · rw [hy]; exact ⟨rfl, rfl, rfl⟩
        · cases hy
  · refine ⟨body ++ [Event.gcl_free Buf.mem_in, Event.gcl_free Buf.mem_out,
      Event.free Buf.test_in, Event.free Buf.test_out], by simp [cleanupTrace], ?_⟩
    intro y hy
    rcases List.mem_append.1 hy with hy | hy
    · exact (hbody Buf.test_in y hy).2
    · simp only [List.mem_cons, List.mem_singleton] at hy
      rcases hy with hy | hy | hy | hy | hy
      · rw [hy]; rfl
      · rw [hy]; rfl
      · rw [hy]; rfl
      · rw [hy]; rfl
      · cases hy

/-- The set-up allocates each of the four blocks. -/
theorem setupTrace_allocates (env : Env) (b : Buf) :
    ∃ x ∈ setupTrace env, x.allocates b = true := by
  cases b
  · exact ⟨Event.malloc Buf.test_in NUM_VALUES, by simp [setupTrace], rfl⟩
  · exact ⟨Event.malloc Buf.test_out NUM_VALUES, by simp [setupTrace], rfl⟩
  · exact ⟨Event.gcl_malloc Buf.mem_in NUM_VALUES (some Buf.test_in), by simp [setupTrace], rfl⟩
  · exact ⟨Event.gcl_malloc Buf.mem_out NUM_VALUES none, by simp [setupTrace], rfl⟩

/-- C8: on both outcomes of the validation (`validate` returns 0 or 1) `main` ends without
a fault and, for each of the four blocks it allocated, its trace splits around the one event
that frees the block: the allocation and no free before it, and after it no read or write
of the block, no free and no allocation; the release of the dispatch queue occurs once, as
the last event; and no block is left allocated. -/
theorem main_frees_each_buffer_once (env : Env) (fuel : Nat) (hfuel : NUM_VALUES < fuel) :
    ∃ (r : Int) (s₁ s₂ s : State),
      main_setup env fuel = .ok (queueOf env, s₁) ∧
      validate Buf.test_in Buf.test_out fuel s₁ = .ok (r, s₂) ∧ (r = 0 ∨ r = 1) ∧
      main env fuel = .ok (0, s) ∧
      (∀ b : Buf, ∃ (pre post : List Event) (e : Event),
        s.trace = pre ++ e :: post ∧ e.frees b = true ∧
        (∃ x ∈ pre, x.allocates b = true) ∧
        (∀ x ∈ pre, x.frees b = false) ∧
        (∀ x ∈ post, x.frees b = false ∧ x.uses b = false ∧ x.allocates b = false)) ∧
      (∃ pre : List Event, s.trace = pre ++ [Event.dispatch_release (queueOf env)] ∧
        ∀ x ∈ pre, x.isRelease = false) ∧
      s.heap = Heap.empty := by
  rcases main_spec env fuel hfuel with ⟨j, _, _, _, hval, hmain⟩ | ⟨_, hval, hmain⟩
  · have hbody : ∀ b, ∀ x ∈ setupTrace env ++
        failureTrace Buf.test_in Buf.test_out (hostInput env) (hostOutput env) j,
        x.frees b = false ∧ x.isRelease = false := by
      intro b x hx
      rcases List.mem_append.1 hx with hx | hx
      · exact setupTrace_no_cleanup env b x hx
      · exact forall_mem_failureTrace Buf.test_in Buf.test_out _ _ j
          (fun e => e.frees b = false ∧ e.isRelease = false)
          (fun _ _ => ⟨rfl, rfl⟩) (fun _ => ⟨rfl, rfl⟩) (fun _ _ => ⟨rfl, rfl⟩) ⟨rfl, rfl⟩ x hx
    have halloc : ∀ b, ∃ x ∈ setupTrace env ++
        failureTrace Buf.test_in Buf.test_out (hostInput env) (hostOutput env) j,
        x.allocates b = true := by
      intro b
      obtain ⟨x, hx, hxa⟩ := setupTrace_allocates env b
      exact ⟨x, List.mem_append_left _ hx, hxa⟩
    obtain ⟨h1, h2⟩ := cleanup_frees_once _ (queueOf env) hbody halloc
    exact ⟨0, _, _, _, main_setup_eq env fuel hfuel, hval, Or.inl rfl, hmain, h1, h2, rfl⟩
  · have hbody : ∀ b, ∀ x ∈ setupTrace env ++ successTrace Buf.test_in Buf.test_out,
        x.frees b = false ∧ x.isRelease = false := by
      intro b x hx
      rcases List.mem_append.1 hx with hx | hx
      · exact setupTrace_no_cleanup env b x hx
      · exact forall_mem_successTrace Buf.test_in Buf.test_out
          (fun e => e.frees b = false ∧ e.isRelease = false)
          (fun _ _ => ⟨rfl, rfl⟩) (fun _ => ⟨rfl, rfl⟩) (fun _ _ => ⟨rfl, rfl⟩) x hx
    have halloc : ∀ b, ∃ x ∈ setupTrace env ++ successTrace Buf.test_in Buf.test_out,
        x.allocates b = true := by
      intro b
      obtain ⟨x, hx, hxa⟩ := setupTrace_allocates env b
      exact ⟨x, List.mem_append_left _ hx, hxa⟩
    obtain ⟨h1, h2⟩ := cleanup_frees_once _ (queueOf env) hbody halloc
    exact ⟨1, _, _, _, main_setup_eq env fuel hfuel, hval, Or.inr rfl, hmain, h1, h2, rfl⟩

/-! ## Instances -/

theorem sampleIn_size : sampleIn.size = 1024 := by
  rw [sampleIn, Array.size_mkArray]
  rfl

theorem sampleOut_size (bad : Bool) : (sampleOut bad).size = 1024 := by
  rw [sampleOut, Array.size_setD, Array.size_mkArray]
  rfl

theorem validate_returns_one_iff_witness :
    ∃ (_ : sampleIn.size = 1024) (_ : (sampleOut false).size = 1024),
      NUM_VALUES < 1025 ∧
      ∃ r s', validate Buf.test_in Buf.test_out 1025 (sampleState false) = .ok (r, s') ∧
        (r = 1 ↔ ∀ i (hi : i < 1024),
          cl_float.ne (sampleOut false)[i] (cl_float.mul sampleIn[i] sampleIn[i]) = false) ∧
        (r ≠ 1 → r = 0) :=
  ⟨sampleIn_size, sampleOut_size false, by decide,
   validate_returns_one_iff Buf.test_in Buf.test_out (sampleState false) sampleIn
     (sampleOut false) rfl rfl sampleIn_size (sampleOut_size false) 1025 (by decide)⟩

theorem main_output_is_squares_witness :
    KernelSquares exactRangeEnv ∧ NUM_VALUES < 1025 ∧
    ∃ (s s' : State) (a o : Array cl_float) (ha : a.size = 1024) (ho : o.size = 1024),
      main_setup exactRangeEnv 1025 = .ok (queueOf exactRangeEnv, s) ∧
      kernelCalls s.trace =
        [Event.square_kernel (dispatchedRange exactRangeEnv.wgs) Buf.mem_in Buf.mem_out] ∧
      s.heap.get Buf.test_in = some a ∧ s.heap.get Buf.test_out = some o ∧
      (∀ (i : Nat) (hi : i < 1024),
        a[i] = cl_float.ofInt (i : Int) ∧ cl_float.toRat a[i] = some (i : ℚ)) ∧
      (∀ (i : Nat) (hi : i < 1024),
        o[i] = cl_float.mul a[i] a[i] ∧ cl_float.toRat o[i] = some ((i * i : Nat) : ℚ)) ∧
      validate Buf.test_in Buf.test_out 1025 s = .ok (1, s') :=
  ⟨exactRangeEnv_squares, by decide,
   main_output_is_squares exactRangeEnv exactRangeEnv_squares 1025 (by decide)⟩

theorem main_queue_fallback_witness :
    NUM_VALUES < 1025 ∧
    ∃ s : State, main squareEnv 1025 = .ok (0, s) ∧
      queueCalls s.trace =
        Event.gcl_create_dispatch_queue cl_device_type.CL_DEVICE_TYPE_GPU ::
          ((if squareEnv.gpu_queue = 0 then
              [Event.gcl_create_dispatch_queue cl_device_type.CL_DEVICE_TYPE_CPU]
            else []) ++
           [Event.dispatch_sync
              (if squareEnv.gpu_queue = 0 then squareEnv.cpu_queue else squareEnv.gpu_queue),
            Event.dispatch_release
              (if squareEnv.gpu_queue = 0 then squareEnv.cpu_queue
                else squareEnv.gpu_queue)]) ∧
      (Event.gcl_create_dispatch_queue cl_device_type.CL_DEVICE_TYPE_CPU ∈ s.trace ↔
        squareEnv.gpu_queue = 0) ∧
      (squareEnv.gpu_queue = 0 → squareEnv.cpu_queue = 0 → Event.dispatch_sync 0 ∈ s.trace) :=
  ⟨by decide, main_queue_fallback squareEnv 1025 (by decide)⟩

theorem main_exit_status_constant_witness :
    NUM_VALUES < 1025 ∧
    (∀ env : Env, ∃ (r : Int) (s₁ s₂ s₃ : State),
      main_setup env 1025 = .ok (queueOf env, s₁) ∧
      validate Buf.test_in Buf.test_out 1025 s₁ = .ok (r, s₂) ∧ (r = 0 ∨ r = 1) ∧
      main env 1025 = .ok (0, s₃)) ∧
    (∃ (s₁ s₂ s₃ : State),
      main_setup idleEnv 1025 = .ok (queueOf idleEnv, s₁) ∧
      validate Buf.test_in Buf.test_out 1025 s₁ = .ok (0, s₂) ∧
      main idleEnv 1025 = .ok (0, s₃)) ∧
    (∃ (s₁ s₂ s₃ : State),
      main_setup squareEnv 1025 = .ok (queueOf squareEnv, s₁) ∧
      validate Buf.test_in Buf.test_out 1025 s₁ = .ok (1, s₂) ∧
      main squareEnv 1025 = .ok (0, s₃)) :=
  ⟨by decide, main_exit_status_constant 1025 (by decide)⟩

theorem main_check_prints_one_outcome_witness :
    ∃ (_ : sampleIn.size = 1024) (_ : (sampleOut true).size = 1024),
      NUM_VALUES < 1025 ∧
      ∃ (s' : State) (l : List Event),
        main_check Buf.test_in Buf.test_out 1025 (sampleState true) = .ok s' ∧
        s'.trace = (sampleState true).trace ++ l ∧
        (((∀ i (hi : i < 1024),
            cl_float.ne (sampleOut true)[i] (cl_float.mul sampleIn[i] sampleIn[i]) = false) ∧
            prints l = [Event.fprintf "All values were properly squared.\n" []])
         ∨ ((∃ i, ∃ (hi : i < 1024),
              cl_float.ne (sampleOut true)[i] (cl_float.mul sampleIn[i] sampleIn[i]) = true) ∧
            ∃ (i : Nat) (saw expected : cl_float), prints l =
              [Event.fprintf "Error: Element %d did not match expected output.\n" [Arg.int i],
               Event.fprintf "       Saw %1.4f, expected %1.4f\n"
                 [Arg.float saw, Arg.float expected]])) :=
  ⟨sampleIn_size, sampleOut_size true, by decide,
   main_check_prints_one_outcome Buf.test_in Buf.test_out (sampleState true) sampleIn
     (sampleOut true) rfl rfl sampleIn_size (sampleOut_size true) 1025 (by decide)⟩

theorem validate_reports_least_mismatch_witness :
    ∃ (_ : sampleIn.size = 1024) (_ : (sampleOut true).size = 1024),
      NUM_VALUES < 1025 ∧
      validate Buf.test_in Buf.test_out 1025 (sampleState true) = .ok (0, sampleFailed) ∧
      ∃ (i : Nat) (hi : i < 1024) (l : List Event),
        sampleFailed.trace = (sampleState true).trace ++ l ∧
        prints l =
          [Event.fprintf "Error: Element %d did not match expected output.\n" [Arg.int i],
           Event.fprintf "       Saw %1.4f, expected %1.4f\n"
             [Arg.float (sampleOut true)[i],
              Arg.float (cl_float.mul sampleIn[i] sampleIn[i])]] ∧
        cl_float.ne (sampleOut true)[i] (cl_float.mul sampleIn[i] sampleIn[i]) = true ∧
        (∀ j (hj : j < i),
          cl_float.ne (sampleOut true)[j] (cl_float.mul sampleIn[j] sampleIn[j]) = false) ∧
        (∀ b j, Event.load b j ∈ l → j ≤ i) :=
  ⟨sampleIn_size, sampleOut_size true, by decide, rfl,
   validate_reports_least_mismatch Buf.test_in Buf.test_out (sampleState true) sampleFailed
     sampleIn (sampleOut true) rfl rfl sampleIn_size (sampleOut_size true) 1025 (by decide)
     rfl⟩

theorem validate_terminates_witness :
    (sampleIn.size = 1024 ∧ (sampleOut true).size = 1024) ∧
    ∃ (r : Int) (s' : State) (l : List Event) (m : Nat),
      (∀ fuel, NUM_VALUES < fuel →
        validate Buf.test_in Buf.test_out fuel (sampleState true) = .ok (r, s')) ∧
      s'.trace = (sampleState true).trace ++ l ∧
      counters l = List.range m ∧ m ≤ 1024 ∧ (counters l).length ≤ 1024 :=
  ⟨⟨sampleIn_size, sampleOut_size true⟩,
   validate_terminates Buf.test_in Buf.test_out (sampleState true) sampleIn (sampleOut true)
     rfl rfl sampleIn_size (sampleOut_size true)⟩

theorem main_frees_each_buffer_once_witness :
    NUM_VALUES < 1025 ∧
    ∃ (r : Int) (s₁ s₂ s : State),
      main_setup idleEnv 1025 = .ok (queueOf idleEnv, s₁) ∧
      validate Buf.test_in Buf.test_out 1025 s₁ = .ok (r, s₂) ∧ (r = 0 ∨ r = 1) ∧
      main idleEnv 1025 = .ok (0, s) ∧
      (∀ b : Buf, ∃ (pre post : List Event) (e : Event),
        s.trace = pre ++ e :: post ∧ e.frees b = true ∧
        (∃ x ∈ pre, x.allocates b = true) ∧
        (∀ x ∈ pre, x.frees b = false) ∧
        (∀ x ∈ post, x.frees b = false ∧ x.uses b = false ∧ x.allocates b = false)) ∧
      (∃ pre : List Event, s.trace = pre ++ [Event.dispatch_release (queueOf idleEnv)] ∧
        ∀ x ∈ pre, x.isRelease = false) ∧
      s.heap = Heap.empty :=
  ⟨by decide, main_frees_each_buffer_once idleEnv 1025 (by decide)⟩

theorem test_in_squares_are_exact_witness :
    (NUM_VALUES < 1025 ∧ 1023 < 1024) ∧
    (1023 < 2 ^ 24 ∧ 1023 * 1023 < 2 ^ 24 ∧ 1023 * 1023 ≤ 1023 * 1023 ∧
      1023 * 1023 = 1046529 ∧
      ∃ (s : State) (a : Array cl_float) (ha : a.size = 1024),
        main_setup squareEnv 1025 = .ok (queueOf squareEnv, s) ∧
        s.heap.get Buf.test_in = some a ∧
        a[1023] = cl_float.ofInt ((1023 : Nat) : Int) ∧
        cl_float.toRat a[1023] = some ((1023 : Nat) : ℚ) ∧
        cl_float.toRat (cl_float.mul a[1023] a[1023]) = some ((1023 * 1023 : Nat) : ℚ) ∧
        cl_float.Representable a[1023] ∧
        cl_float.Representable (cl_float.mul a[1023] a[1023]) ∧
        ∀ x : cl_float,
          cl_float.ne x (cl_float.mul a[1023] a[1023]) = true ↔
            cl_float.toRat x ≠ some ((1023 * 1023 : Nat) : ℚ)) :=
  ⟨⟨by decide, by decide⟩, test_in_squares_are_exact squareEnv 1025 (by decide) 1023 (by decide)⟩

theorem validate_read_only_in_bounds_witness :
    (1024 ≤ sampleIn.size ∧ 1024 ≤ (sampleOut false).size ∧ NUM_VALUES < 1025) ∧
    ∃ (r : Int) (s' : State) (l : List Event),
      validate Buf.test_in Buf.test_out 1025 (sampleState false) = .ok (r, s') ∧
      (r = 0 ∨ r = 1) ∧
      s'.heap = (sampleState false).heap ∧ s'.heap.get Buf.test_in = some sampleIn ∧
      s'.heap.get Buf.test_out = some (sampleOut false) ∧
      s'.trace = (sampleState false).trace ++ l ∧
      (∀ b i, Event.load b i ∈ l → i < 1024 ∧ i < sampleIn.size ∧ i < (sampleOut false).size ∧
        (b = Buf.test_in ∨ b = Buf.test_out)) ∧
      (∀ b i, Event.store b i ∉ l) ∧
      (∀ e ∈ l, (∃ b i, e = Event.load b i) ∨ (∃ i, e = Event.compare i) ∨
        (∃ f args, e = Event.fprintf f args) ∨ e = Event.fflush) :=
  ⟨⟨Nat.le_of_eq sampleIn_size.symm, Nat.le_of_eq (sampleOut_size false).symm, by decide⟩,
   validate_read_only_in_bounds Buf.test_in Buf.test_out (sampleState false) sampleIn
     (sampleOut false) rfl rfl (Nat.le_of_eq sampleIn_size.symm)
     (Nat.le_of_eq (sampleOut_size false).symm) 1025 (by decide)⟩

end DepthMapToPointCloud
